import Mathlib

/-!
Verification development for the `botmoderator` repository: a shallow
embedding of the moderation data store (`bot/data_store.py`), the
sliding-window rate limiter, the moderation pipeline and the admin
command handler (`bot/moderation_bot.py`), together with theorems
settling the specification claims.

Conventions of the embedding:
* Python dicts keyed by `str(int)` are modelled as association lists
  keyed by `Int` (the `str`/`int` conversion is injective, and dict
  insertion order is the list order).
* Timestamps (`time.time()` floats) are modelled as `Int`: the code
  only compares and subtracts them.
* Python string primitives that Lean's `String` implements by
  position-based recursion (which the kernel cannot evaluate) are
  re-modelled structurally over `List Char`: `pytrim` for `str.strip`,
  `pysplit` for `str.split(",")`, `replaceChar` for the single-character
  `str.replace` calls, `parseInt` for `int(...)`, `casefold`
  (character-wise lowercasing) for `str.casefold`/`str.lower` — they
  agree on the alphabets exercised here.
* Outbound Telegram API calls are recorded in a trace; the results of
  the fallible calls (`deleteMessage`, `banChatMember`,
  `getChatAdministrators`, `getChat`) are supplied by an `ApiEnv`
  oracle, an `Except`-valued function per method (`.error` models a
  raised `TelegramAPIError`).  `sendMessage` failures are swallowed by
  the code (`_send_to_chat` / `_send_ephemeral` catch and log), so
  sends are recorded as attempted calls only.  The ephemeral-deletion
  timer of `_send_ephemeral` is asynchronous real-time behaviour and
  is outside the scope of the claims.
-/

namespace BotMod

/-! ### Association-list primitives (model of Python dict operations) -/

/-- Lookup in an association list (`dict.get`). -/
def alGet {α : Type} (l : List (Int × α)) (k : Int) : Option α :=
  (l.find? (fun p => p.1 == k)).map (·.2)

/-- Key-presence test (`key in dict`). -/
def alHas {α : Type} (l : List (Int × α)) (k : Int) : Bool :=
  l.any (fun p => p.1 == k)

/-- Update an existing key in place, or append (`dict[key] = value`,
preserving insertion order as CPython does). -/
def alSet {α : Type} (l : List (Int × α)) (k : Int) (v : α) : List (Int × α) :=
  if l.any (fun p => p.1 == k) then
    l.map (fun p => if p.1 == k then (k, v) else p)
  else l ++ [(k, v)]

/-- Remove a key (`dict.pop(key, None)`). -/
def alRemove {α : Type} (l : List (Int × α)) (k : Int) : List (Int × α) :=
  l.filter (fun p => p.1 != k)

/-! ### String helpers shared by the embedding -/

/-- Python truthiness of an optional string: `None` and `""` are falsy. -/
def strTruthy : Option String → Option String
  | some s => if s = "" then none else some s
  | none => none

/-- Model of `str.casefold()` (see the header note): character-wise
lowercasing. -/
def casefold (s : String) : String := String.mk (s.data.map Char.toLower)

/-- Strip leading whitespace (half of `str.strip()`). -/
def dropWs (l : List Char) : List Char := l.dropWhile Char.isWhitespace

/-- Model of `str.strip()` with no argument: remove whitespace from both
ends. -/
def pytrim (s : String) : String := String.mk ((dropWs s.data).reverse |> dropWs).reverse

/-- Model of `str.split(sep)` for a one-character separator (used with
`","`): split into the (possibly empty) chunks between separators. -/
def splitChunks (sep : Char) : List Char → List Char → List String
  | [], acc => [String.mk acc.reverse]
  | c :: cs, acc =>
      if c = sep then String.mk acc.reverse :: splitChunks sep cs []
      else splitChunks sep cs (c :: acc)

/-- `str.split(",")` on a string. -/
def pysplit (sep : Char) (s : String) : List String := splitChunks sep s.data []

/-- Model of `str.replace(old, new)` for a one-character `old` (the only
shape `_escape_html` uses): replace every occurrence. -/
def replaceChar (target : Char) (rep : List Char) : List Char → List Char
  | [] => []
  | c :: cs =>
      if c = target then rep ++ replaceChar target rep cs
      else c :: replaceChar target rep cs

/-- Model of `int(raw)` (as exercised by `_parse_int`): an optional minus
sign followed by at least one decimal digit; anything else raises. -/
def digitsVal : List Char → Option Nat → Option Nat
  | [], acc => acc
  | c :: cs, acc =>
      if c.isDigit then digitsVal cs (some ((acc.getD 0) * 10 + (c.toNat - 48)))
      else none

/-- `int(raw)` returning `none` on a `ValueError`. -/
def parseInt (s : String) : Option Int :=
  match s.data with
  | '-' :: rest => (digitsVal rest none).map (fun n => -(n : Int))
  | l => (digitsVal l none).map (fun n => (n : Int))

/-- `needle` is a prefix of `hay`, on character lists. -/
def prefixMatch : List Char → List Char → Bool
  | [], _ => true
  | _ :: _, [] => false
  | n :: ns, h :: hs => (n == h) && prefixMatch ns hs

/-- `str.startswith(pre)`. -/
def strStartsWith (pre s : String) : Bool := prefixMatch pre.data s.data

/-- `needle` occurs as a contiguous substring of `hay` (model of
Python's `needle in hay` on strings), on character lists. -/
def subMatch (needle : List Char) : List Char → Bool
  | [] => needle.isEmpty
  | h :: hs => prefixMatch needle (h :: hs) || subMatch needle hs

/-- Substring test on strings. -/
def containsSub (needle hay : String) : Bool :=
  subMatch needle.toList hay.toList

/-! ### The moderation store (`bot/data_store.py`, class `ModerationStore`)

`self._data = {"moderated_chats": {...}, "global_keywords": [...]}`;
each chat entry is `{"title": str, "keywords": list, "warnings": dict}`.
Persistence (`_persist`) writes the whole snapshot and does not change
the in-memory state, so it is not part of the state model. -/

structure ChatEntry where
  title : String
  keywords : List String
  warnings : List (Int × Nat)
deriving DecidableEq

structure Store where
  moderatedChats : List (Int × ChatEntry)
  globalKeywords : List String
deriving DecidableEq

/-- The default entry created by `_get_chat_entry(..., create=True)`. -/
def emptyEntry : ChatEntry := { title := "", keywords := [], warnings := [] }

/-- Write one chat entry into a store (the common tail of the mutating
store operations). -/
def setChatEntry (s : Store) (chatId : Int) (e : ChatEntry) : Store :=
  { s with moderatedChats := alSet s.moderatedChats chatId e }

/-- Set the title field of an entry. -/
def withTitle (e : ChatEntry) (t : String) : ChatEntry :=
  { e with title := t }

/-- Set the warnings field of an entry. -/
def withWarnings (e : ChatEntry) (w : List (Int × Nat)) : ChatEntry :=
  { e with warnings := w }

/-- `ModerationStore.is_chat_moderated`. -/
def is_chat_moderated (s : Store) (chatId : Int) : Bool :=
  alHas s.moderatedChats chatId

/-- `ModerationStore.add_chat`: `setdefault` the entry, optionally set the
title on it, return whether the chat was newly created. -/
def add_chat (s : Store) (chatId : Int) (title : Option String) : Store × Bool :=
  let exists_ := alHas s.moderatedChats chatId
  let chats1 := if exists_ then s.moderatedChats else s.moderatedChats ++ [(chatId, emptyEntry)]
  let chats2 :=
    match title with
    | none => chats1
    | some t =>
        let e := (alGet chats1 chatId).getD emptyEntry
        alSet chats1 chatId { e with title := t }
  ({ s with moderatedChats := chats2 }, !exists_)

/-- `ModerationStore.update_chat_title` (creates the entry if absent). -/
def update_chat_title (s : Store) (chatId : Int) (title : String) : Store :=
  let e := (alGet s.moderatedChats chatId).getD emptyEntry
  { s with moderatedChats := alSet s.moderatedChats chatId { e with title := title } }

/-- `ModerationStore.remove_chat`: pop the entry, report whether it was there. -/
def remove_chat (s : Store) (chatId : Int) : Store × Bool :=
  let removed := alHas s.moderatedChats chatId
  ({ s with moderatedChats := alRemove s.moderatedChats chatId }, removed)

/-- `ModerationStore.list_chats`: every stored chat with its title and
warnings, reporting the current global keyword list for each chat. -/
def list_chats (s : Store) : List (Int × ChatEntry) :=
  s.moderatedChats.map (fun p =>
    (p.1, { title := p.2.title, keywords := s.globalKeywords, warnings := p.2.warnings }))

/-- The cleaning step of `add_keywords`/`remove_keywords`:
`[w.strip() for w in words if w and w.strip()]`. -/
def cleanedWords (words : List String) : List String :=
  (words.filter (fun w => w != "" && pytrim w != "")).map pytrim

/-- `ModerationStore.add_keywords` on the global keyword list: filter the
cleaned batch against the casefolds of the *existing* list and append.
Returns the new list and the count actually added. -/
def add_keywords_list (current words : List String) : List String × Nat :=
  let cleaned := cleanedWords words
  if cleaned = [] then (current, 0)
  else
    let existingCf := current.map casefold
    let added := cleaned.filter (fun w => !(existingCf.contains (casefold w)))
    if added = [] then (current, 0)
    else (current ++ added, added.length)

/-- `ModerationStore.add_keywords`. -/
def add_keywords (s : Store) (words : List String) : Store × Nat :=
  let r := add_keywords_list s.globalKeywords words
  ({ s with globalKeywords := r.1 }, r.2)

/-- `ModerationStore.remove_keywords` on the global keyword list. -/
def remove_keywords_list (current words : List String) : List String × Nat :=
  let targets := cleanedWords words
  if targets = [] then (current, 0)
  else
    let toRemoveCf := targets.map casefold
    let kept := current.filter (fun w => !(toRemoveCf.contains (casefold w)))
    (kept, current.length - kept.length)

/-- `ModerationStore.remove_keywords`. -/
def remove_keywords (s : Store) (words : List String) : Store × Nat :=
  let r := remove_keywords_list s.globalKeywords words
  ({ s with globalKeywords := r.1 }, r.2)

/-- `ModerationStore.get_keywords` (global list, chat id ignored). -/
def get_keywords (s : Store) (_chatId : Int) : List String :=
  s.globalKeywords

/-- `ModerationStore.list_global_keywords`. -/
def list_global_keywords (s : Store) : List String :=
  s.globalKeywords

/-- `ModerationStore.increment_warning` (creates the chat entry if absent). -/
def increment_warning (s : Store) (chatId userId : Int) : Store × Nat :=
  let e := (alGet s.moderatedChats chatId).getD emptyEntry
  let old := (alGet e.warnings userId).getD 0
  let newCount := old + 1
  let e' := { e with warnings := alSet e.warnings userId newCount }
  ({ s with moderatedChats := alSet s.moderatedChats chatId e' }, newCount)

/-- `ModerationStore.reset_warnings`: pop the user's counter if present. -/
def reset_warnings (s : Store) (chatId userId : Int) : Store × Bool :=
  match alGet s.moderatedChats chatId with
  | none => (s, false)
  | some e =>
      if alHas e.warnings userId then
        let e' := { e with warnings := alRemove e.warnings userId }
        ({ s with moderatedChats := alSet s.moderatedChats chatId e' }, true)
      else (s, false)

/-- `ModerationStore.get_warning`: 0 for unknown chat or user. -/
def get_warning (s : Store) (chatId userId : Int) : Nat :=
  match alGet s.moderatedChats chatId with
  | none => 0
  | some e => (alGet e.warnings userId).getD 0

/-- `ModerationStore.get_all_warnings`: empty mapping for unknown chat. -/
def get_all_warnings (s : Store) (chatId : Int) : List (Int × Nat) :=
  match alGet s.moderatedChats chatId with
  | none => []
  | some e => e.warnings

/-! ### The sliding-window rate limiter
(`ModerationBot._handle_moderation`, lines 360-385) -/

/-- The `while dq and now - dq[0] > WINDOW: dq.popleft()` loop: drop the
maximal prefix of timestamps older than the window. -/
def dropOld (window now : Int) : List Int → List Int
  | [] => []
  | t :: rest => if window < now - t then dropOld window now rest else t :: rest

/-- One `checkAndRecord(chat, user, now)` step of the rate limiter on a
single (chat,user) deque: returns `(exceeded, new deque)`.  Mirrors:
drop old timestamps from the front; if the count is at/over the limit
and the oldest survivor is within the window, report exceeded without
recording `now`; otherwise append `now`. -/
def checkAndRecord (window : Int) (maxMsgs : Nat) (dq : List Int) (now : Int) :
    Bool × List Int :=
  let dq2 := dropOld window now dq
  if maxMsgs ≤ dq2.length ∧ (dq2 ≠ [] ∧ now - dq2.headD 0 ≤ window) then
    (true, dq2)
  else
    (false, dq2 ++ [now])

/-- Run the rate limiter over a sequence of call times starting from an
empty deque, collecting the `exceeded` flags. -/
def rlRun (window : Int) (maxMsgs : Nat) (times : List Int) : List Bool :=
  (times.foldl
    (fun acc t =>
      let r := checkAndRecord window maxMsgs acc.2 t
      (acc.1 ++ [r.1], r.2))
    (([], []) : List Bool × List Int)).1

/-! ### Inbound messages, configuration and the API oracle -/

/-- `message["chat"]` fields used by the bot (`dict.get` ⇒ `Option`). -/
structure TgChat where
  id : Option Int
  type : Option String
deriving DecidableEq

/-- `message["from"]` fields used by the bot. -/
structure TgUser where
  id : Option Int
  username : Option String
  firstName : Option String
  lastName : Option String
deriving DecidableEq

/-- A group-context message as consumed by `_handle_moderation`. -/
structure Message where
  chat : TgChat
  fromUser : TgUser
  messageId : Option Int
  text : Option String
  caption : Option String
deriving DecidableEq

/-- The configuration fields the pipeline reads: `config.admin_chat_ids`,
`config.warning_limit`, and the instance attributes `MAX_MESSAGE_LENGTH`
(set to 100 in `__init__`), `RL_WINDOW_SECONDS` and `RL_MAX_MESSAGES`
(`getattr` defaults 60 and 10, since `BotConfig` declares neither). -/
structure BotCfg where
  adminChatIds : List Int
  warningLimit : Nat
  maxMessageLength : Nat
  rlWindowSeconds : Int
  rlMaxMessages : Nat
deriving DecidableEq

/-- One outbound Telegram API call, as recorded in the trace. -/
inductive Call where
  | deleteMessage (chatId messageId : Int)
  | sendMessage (chatId : Int) (text : String)
  | banChatMember (chatId userId : Int)
  | getChatAdministrators (chatId : Int)
  | getChat (chatId : Int)
deriving DecidableEq

/-- Result of `get_chat`: the `title` and `username` fields. -/
structure ChatInfo where
  title : Option String
  username : Option String
deriving DecidableEq

/-- Oracle for the fallible API calls: `.error e` models a raised
`TelegramAPIError(e)`.  `get_chat_administrators` returns the list of
the administrators' user ids (each element models `adm["user"]["id"]`). -/
structure ApiEnv where
  deleteResult : Int → Int → Except String Unit
  banResult : Int → Int → Except String Unit
  adminsResult : Int → Except String (List Int)
  getChatResult : Int → Except String ChatInfo

/-- `_notify_admins`: attempt a send to every admin chat (failures are
caught and logged). -/
def notify_admins (cfg : BotCfg) (text : String) : List Call :=
  cfg.adminChatIds.map (fun a => Call.sendMessage a text)

/-! ### User display and notice texts -/

/-- `_format_user`. -/
def format_user (u : TgUser) : String :=
  match strTruthy u.username with
  | some un => "@" ++ un
  | none =>
      match strTruthy u.firstName, strTruthy u.lastName with
      | some f, some l => f ++ " " ++ l
      | some f, none => f
      | none, _ =>
          match u.id with
          | some i => toString i
          | none => "Пользователь"

/-- `_escape_html`. -/
def escape_html (text : String) : String :=
  String.mk (replaceChar '>' "&gt;".data
    (replaceChar '<' "&lt;".data
      (replaceChar '&' "&amp;".data text.data)))

/-- The `user_id` interpolated into the mention link (`None` prints as
`"None"` in the f-string). -/
def optIdStr : Option Int → String
  | some i => toString i
  | none => "None"

/-- `_build_mention`: mention text and parse mode. -/
def build_mention (u : TgUser) : String × Option String :=
  match strTruthy u.username with
  | some un => ("@" ++ un, none)
  | none =>
      let safe := escape_html (format_user u)
      ("<a href=\"tg://user?id=" ++ optIdStr u.id ++ "\">" ++ safe ++ "</a>", some "HTML")

/-- Notice sent when a long message is deleted. -/
def longMsgNotice (u : TgUser) : String :=
  (build_mention u).1 ++ ", сообщение слишком длинное. Сократите, пожалуйста."

/-- Warning notice sent by `_process_violation`. -/
def violationNotice (u : TgUser) (detected : String) (count limit : Nat) : String :=
  (build_mention u).1 ++ ", вам вынесено предупреждение за нарушение: «"
    ++ escape_html detected ++ "». Пожалуйста, соблюдайте правила чата. Предупреждение "
    ++ toString count ++ " из " ++ toString limit ++ "."

/-- Admin note when a ban is skipped (`_enforce_ban`, can-ban false). -/
def banSkipNote (userDisplay : String) : String :=
  "Не удалось заблокировать " ++ userDisplay ++ ": админ или недостаточно прав."

/-- Group note when a ban is skipped. -/
def cantBanGroupNote (userDisplay : String) : String :=
  "Не могу заблокировать " ++ userDisplay ++ ": недостаточно прав."

/-- Admin note when the ban call raised (includes the failure reason). -/
def banFailNote (userDisplay : String) (userId chatId : Int) (exc : String) : String :=
  "Ошибка блокировки " ++ userDisplay ++ " (id=" ++ toString userId
    ++ ") в чате " ++ toString chatId ++ ": " ++ exc

/-- Group note after a successful ban. -/
def banGroupNote (userDisplay : String) (warningCount : Nat) : String :=
  userDisplay ++ " заблокирован после " ++ toString warningCount ++ " предупреждений."

/-- Admin note after a successful ban. -/
def banOkNote (userDisplay : String) (userId chatId : Int) : String :=
  "Пользователь " ++ userDisplay ++ " (id=" ++ toString userId
    ++ ") заблокирован в чате " ++ toString chatId ++ "."

/-! ### Escalation (`_can_ban`, `_enforce_ban`, `_process_violation`) -/

/-- `_can_ban`: true when it is reasonable to attempt a ban.  Note the
documented behaviour: if fetching the administrators fails, it returns
`True` ("let API decide"). -/
def can_ban (env : ApiEnv) (chatId userId : Int) : Bool :=
  match env.adminsResult chatId with
  | .error _ => true
  | .ok admins => !(admins.contains userId)

/-- `_enforce_ban`: returns the store after the attempt plus the trace of
API calls made (admin-list query, ban attempt, notices). -/
def enforce_ban (cfg : BotCfg) (env : ApiEnv) (s : Store)
    (chatId userId : Int) (userDisplay : String) (warningCount : Nat) :
    Store × List Call :=
  let q := [Call.getChatAdministrators chatId]
  if !(can_ban env chatId userId) then
    (s, q ++ notify_admins cfg (banSkipNote userDisplay)
        ++ [Call.sendMessage chatId (cantBanGroupNote userDisplay)])
  else
    match env.banResult chatId userId with
    | .error e =>
        (s, q ++ [Call.banChatMember chatId userId]
            ++ notify_admins cfg (banFailNote userDisplay userId chatId e))
    | .ok _ =>
        let s2 := (reset_warnings s chatId userId).1
        (s2, q ++ [Call.banChatMember chatId userId,
                   Call.sendMessage chatId (banGroupNote userDisplay warningCount)]
            ++ notify_admins cfg (banOkNote userDisplay userId chatId))

/-- `_process_violation`: delete the message (abort on failure), increment
the warning counter, send the warning notice, escalate to a ban attempt
when the new count reaches the limit. -/
def process_violation (cfg : BotCfg) (env : ApiEnv) (s : Store)
    (msg : Message) (matched : List String) : Store × List Call :=
  match msg.chat.id, msg.messageId, msg.fromUser.id with
  | some chatId, some messageId, some userId =>
      match env.deleteResult chatId messageId with
      | .error _ => (s, [Call.deleteMessage chatId messageId])
      | .ok _ =>
          let r := increment_warning s chatId userId
          let warningCount := r.2
          let detected := matched.headD "запрещенное слово"
          let warnText := violationNotice msg.fromUser detected warningCount cfg.warningLimit
          let tr1 := [Call.deleteMessage chatId messageId, Call.sendMessage chatId warnText]
          if cfg.warningLimit ≤ warningCount then
            let rb := enforce_ban cfg env r.1 chatId userId (format_user msg.fromUser) warningCount
            (rb.1, tr1 ++ rb.2)
          else (r.1, tr1)
  | _, _, _ => (s, [])

/-! ### The moderation pipeline entry point (`_handle_moderation`) -/

/-- `_extract_text`: text if truthy, else caption if truthy, else `None`. -/
def extractText (msg : Message) : Option String :=
  match strTruthy msg.text with
  | some t => some t
  | none => strTruthy msg.caption

/-- Per-(chat,user) rate windows (`self._rate_buckets`, a nested
defaultdict of deques; missing keys default to the empty deque). -/
abbrev RateMap := List ((Int × Int) × List Int)

/-- Read a (chat,user) deque, defaulting to empty. -/
def rateGet (r : RateMap) (chatId userId : Int) : List Int :=
  ((r.find? (fun p => p.1 == (chatId, userId))).map (·.2)).getD []

/-- Write back a (chat,user) deque. -/
def rateSet (r : RateMap) (chatId userId : Int) (dq : List Int) : RateMap :=
  if r.any (fun p => p.1 == (chatId, userId)) then
    r.map (fun p => if p.1 == (chatId, userId) then ((chatId, userId), dq) else p)
  else r ++ [((chatId, userId), dq)]

/-- `_handle_moderation`: the full decision pipeline for one group
message at time `now`.  Returns the store, the rate windows and the
trace of attempted API calls. -/
def handle_moderation (cfg : BotCfg) (env : ApiEnv) (s : Store) (rate : RateMap)
    (msg : Message) (now : Int) : Store × RateMap × List Call :=
  match msg.chat.id with
  | none => (s, rate, [])
  | some chatId =>
    if chatId ∈ cfg.adminChatIds then (s, rate, [])
    else if !(is_chat_moderated s chatId) then (s, rate, [])
    else if !(msg.chat.type == some "group" || msg.chat.type == some "supergroup") then
      (s, rate, [])
    else
      match msg.fromUser.id, msg.messageId with
      | some userId, some messageId =>
          let dq := rateGet rate chatId userId
          let rl := checkAndRecord cfg.rlWindowSeconds cfg.rlMaxMessages dq now
          let rate' := rateSet rate chatId userId rl.2
          if rl.1 then
            match env.deleteResult chatId messageId with
            | .error _ => (s, rate', [Call.deleteMessage chatId messageId])
            | .ok _ =>
                (s, rate', [Call.deleteMessage chatId messageId,
                            Call.sendMessage chatId "Не флуди!"])
          else
            match extractText msg with
            | none => (s, rate', [])
            | some text =>
                if cfg.maxMessageLength < text.length then
                  match env.deleteResult chatId messageId with
                  | .error _ => (s, rate', [Call.deleteMessage chatId messageId])
                  | .ok _ =>
                      (s, rate', [Call.deleteMessage chatId messageId,
                                  Call.sendMessage chatId (longMsgNotice msg.fromUser)])
                else
                  let keywords := get_keywords s chatId
                  let textCf := casefold text
                  let matched :=
                    if keywords.isEmpty then []
                    else keywords.filter (fun kw => containsSub (casefold kw) textCf)
                  if matched.isEmpty then (s, rate', [])
                  else
                    let pv := process_violation cfg env s msg matched
                    (pv.1, rate', pv.2)
      | _, _ => (s, rate, [])

/-! ### The admin command handler (`_handle_admin_message` and helpers)

`shlex.split` is an external library call; it is passed in as an oracle
`tok : String → Option (List String)` where `none` models the
`ValueError` raised on unbalanced quoting (on which the handler returns
with no action and the session left as it was). -/

/-- An admin session (`{"state": ..., "data": {"req_id": ...}}`). -/
structure Session where
  state : String
  reqId : Option Int
deriving DecidableEq

abbrev Sessions := List (Int × Session)

/-- `chat_shared` payload of a message (`KeyboardButtonRequestChat`). -/
structure SharedChat where
  chatId : Int
  requestId : Option Int
deriving DecidableEq

/-- A message as consumed by `_handle_admin_message`
(`message["chat"]["id"]` is indexed directly, hence non-optional). -/
structure AdminMsg where
  chatId : Int
  messageId : Option Int
  text : Option String
  caption : Option String
  chatShared : Option SharedChat
deriving DecidableEq

/-- `text = message.get("text") or message.get("caption") or ""`. -/
def adminText (msg : AdminMsg) : String :=
  match strTruthy msg.text with
  | some t => t
  | none =>
      match strTruthy msg.caption with
      | some c => c
      | none => ""

/-- `_parse_int` (`int(raw)` modelled by `String.toInt?`). -/
def parseIntField (raw field : String) : Except String Int :=
  match parseInt raw with
  | some i => .ok i
  | none => .error ("Некорректное число для " ++ field ++ ": " ++ raw)

/-- Case-insensitive dedup keeping the first spelling
(the loop of `_parse_words_csv`). -/
def dedupCasefold : List String → List String → List String
  | [], _ => []
  | p :: ps, seen =>
      if seen.contains (casefold p) then dedupCasefold ps seen
      else p :: dedupCasefold ps (casefold p :: seen)

/-- `_parse_words_csv`: split on commas, trim, drop empties, dedup
case-insensitively preserving first spellings. -/
def parse_words_csv (raw : String) : List String :=
  let parts := ((pysplit ',' raw).map pytrim).filter (fun p => p ≠ "")
  dedupCasefold parts []

/-- The button labels whose echo `_maybe_delete_ui_echo` deletes. -/
def uiLabels : List String :=
  ["Чаты", "Модерируемые чаты", "Добавить чат", "Удалить чат",
   "Слова", "Добавить слово", "Удалить слово", "Список слов",
   "Предупреждения", "Сброс предупреждений", "Помощь", "Меню"]

/-- `_maybe_delete_ui_echo`: attempt to delete the admin's button-press
echo message (failures swallowed). -/
def echoDelete (chatId : Int) (messageId : Option Int) (text : String) : List Call :=
  match messageId with
  | none => []
  | some mid => if uiLabels.contains text then [Call.deleteMessage chatId mid] else []

/-- `_show_global_keywords` (the store is not changed). -/
def showKeywordsTrace (s : Store) (chatId : Int) : List Call :=
  if (list_global_keywords s).isEmpty then
    [Call.sendMessage chatId "Список ключевых слов пуст."]
  else
    [Call.sendMessage chatId ("Ключевые слова:\n" ++ String.intercalate "\n" (list_global_keywords s))]

/-- One entry of `_cmd_list_chats`'s loop: `_resolve_chat_title_username`
plus the display fallback, threading the store (titles may be
refreshed opportunistically). -/
def resolveChatLine (env : ApiEnv) (sAcc : Store) (targetChatId : Int) (cached : String) :
    Store × String :=
  match env.getChatResult targetChatId with
  | .error _ =>
      (sAcc, if cached ≠ "" then cached else "Без названия")
  | .ok info =>
      let title := if info.title.getD "" ≠ "" then info.title.getD "" else cached
      let sAcc' := if title ≠ "" ∧ title ≠ cached then update_chat_title sAcc targetChatId title
                   else sAcc
      let display :=
        if title ≠ "" then title
        else
          match strTruthy info.username with
          | some u => "@" ++ u
          | none => "Без названия"
      (sAcc', display)

/-- `_cmd_list_chats`. -/
def cmd_list_chats (env : ApiEnv) (s : Store) (chatId : Int) : Store × List Call :=
  let chats := list_chats s
  if chats.isEmpty then (s, [Call.sendMessage chatId "Нет модерируемых чатов."])
  else
    let res := chats.foldl
      (fun (acc : Store × List String × List Call) p =>
        let r := resolveChatLine env acc.1 p.1 p.2.title
        (r.1, acc.2.1 ++ [r.2], acc.2.2 ++ [Call.getChat p.1]))
      (s, [], [])
    (res.1, res.2.2
      ++ [Call.sendMessage chatId ("Модерируемые чаты:\n" ++ String.intercalate "\n" res.2.1)])

/-- The `/help` text of `_cmd_help`. -/
def helpText : String :=
  "Выберите раздел: Чаты или Слова. Доступные команды:\n"
    ++ String.intercalate "\n"
      ["/add_chat <chat_id> [описание]", "/remove_chat <chat_id>", "/list_chats",
       "/add_keyword <слова через запятую>", "/remove_keyword <слова через запятую>",
       "/list_keywords", "/warnings <chat_id> [user_id]", "/reset_warning <chat_id> <user_id>"]

/-- Dispatch of one active-session step (`# 2) Handle active session step`);
`.error` models a raised `ValueError`. -/
def sessionStep (s : Store) (chatId : Int) (state text : String)
    (tokens : List String) : Except String (Store × List Call) :=
  if state = "AWAIT_ADD_CHAT" then
    match tokens with
    | [] => .error "Нужно передать chat_id [описание]"
    | t0 :: rest =>
        match parseIntField t0 "chat_id" with
        | .error e => .error e
        | .ok targetChatId =>
            let title := if rest.length > 0 then some (String.intercalate " " rest) else none
            let r := add_chat s targetChatId title
            let txt := if r.2 then "Чат " ++ toString targetChatId ++ " добавлен."
                       else "Чат " ++ toString targetChatId ++ " уже есть. Данные обновлены."
            .ok (r.1, [Call.sendMessage chatId txt])
  else if state = "AWAIT_REMOVE_CHAT" then
    match tokens with
    | [] => .error "Нужно передать chat_id"
    | t0 :: _ =>
        match parseIntField t0 "chat_id" with
        | .error e => .error e
        | .ok targetChatId =>
            let r := remove_chat s targetChatId
            let txt := "Чат " ++ toString targetChatId ++ ": "
                         ++ (if r.2 then "Удален." else "Не найден.")
            .ok (r.1, [Call.sendMessage chatId txt])
  else if state = "AWAIT_ADD_KEYWORD" then
    let words := parse_words_csv text
    if words = [] then .error "Нужно отправить слова через запятую"
    else
      let r := add_keywords s words
      let txt := if r.2 ≠ 0 then "Добавлено слов: " ++ toString r.2 ++ "."
                 else "Новые слова не обнаружены."
      .ok (r.1, [Call.sendMessage chatId txt])
  else if state = "AWAIT_REMOVE_KEYWORD" then
    let words := parse_words_csv text
    if words = [] then .error "Нужно отправить слова через запятую"
    else
      let r := remove_keywords s words
      let txt := if r.2 ≠ 0 then "Удалено слов: " ++ toString r.2 ++ "."
                 else "Совпадений для удаления не найдено."
      .ok (r.1, [Call.sendMessage chatId txt])
  else if state = "AWAIT_WARNINGS" then
    match tokens with
    | [] => .error "Нужно передать chat_id [user_id]"
    | t0 :: rest =>
        match parseIntField t0 "chat_id" with
        | .error e => .error e
        | .ok targetChatId =>
            match rest with
            | [] =>
                let warnings := get_all_warnings s targetChatId
                if warnings.isEmpty then
                  .ok (s, [Call.sendMessage chatId
                    ("Для чата " ++ toString targetChatId ++ " нет предупреждений.")])
                else
                  let lines := warnings.map (fun p => toString p.1 ++ ": " ++ toString p.2)
                  .ok (s, [Call.sendMessage chatId
                    ("Предупреждения в чате " ++ toString targetChatId ++ ":\n"
                      ++ String.intercalate "\n" lines)])
            | t1 :: _ =>
                match parseIntField t1 "user_id" with
                | .error e => .error e
                | .ok userId =>
                    let cnt := get_warning s targetChatId userId
                    .ok (s, [Call.sendMessage chatId
                      ("Пользователь " ++ toString userId ++ ": " ++ toString cnt
                        ++ " предупреждений в " ++ toString targetChatId ++ ".")])
  else if state = "AWAIT_RESET_WARNING" then
    match tokens with
    | t0 :: t1 :: _ =>
        match parseIntField t0 "chat_id" with
        | .error e => .error e
        | .ok targetChatId =>
            match parseIntField t1 "user_id" with
            | .error e => .error e
            | .ok userId =>
                let r := reset_warnings s targetChatId userId
                let txt := "Счетчик предупреждений пользователя " ++ toString userId ++ " "
                             ++ (if r.2 then "сброшен" else "не найден") ++ "."
                .ok (r.1, [Call.sendMessage chatId txt])
    | _ => .error "Нужно передать chat_id и user_id"
  else
    .ok (s, [])

/-- The session branch including its `except ValueError` /
`finally: _clear_session` wrapper. -/
def sessionOutcome (s : Store) (chatId : Int) (state text : String)
    (tokens : List String) : Store × List Call :=
  match sessionStep s chatId state text tokens with
  | .ok r => r
  | .error e => (s, [Call.sendMessage chatId ("Ошибка: " ++ e)])

/-- `_cmd_add_chat`. -/
def cmd_add_chat (s : Store) (chatId : Int) (args : List String) :
    Except String (Store × List Call) :=
  match args with
  | [] => .error "Укажите идентификатор чата"
  | a0 :: rest =>
      match parseIntField a0 "chat_id" with
      | .error e => .error e
      | .ok targetChatId =>
          let title := if rest.length > 0 then some (String.intercalate " " rest) else none
          let r := add_chat s targetChatId title
          let txt := if r.2 then "Чат " ++ toString targetChatId ++ " добавлен в список модерируемых."
                     else "Чат " ++ toString targetChatId ++ " уже был в списке. Данные обновлены."
          .ok (r.1, [Call.sendMessage chatId txt])

/-- `_cmd_remove_chat`. -/
def cmd_remove_chat (s : Store) (chatId : Int) (args : List String) :
    Except String (Store × List Call) :=
  match args with
  | [] => .error "Укажите идентификатор чата"
  | a0 :: _ =>
      match parseIntField a0 "chat_id" with
      | .error e => .error e
      | .ok targetChatId =>
          let r := remove_chat s targetChatId
          let txt := if r.2 then "Чат " ++ toString targetChatId ++ " удален из списка модерируемых."
                     else "Чат " ++ toString targetChatId ++ " не найден в списке."
          .ok (r.1, [Call.sendMessage chatId txt])

/-- `_cmd_add_keyword`. -/
def cmd_add_keyword (s : Store) (chatId : Int) (args : List String) :
    Except String (Store × List Call) :=
  match args with
  | [] => .error "Укажите слова через запятую"
  | _ =>
      let words := parse_words_csv (String.intercalate " " args)
      let r := add_keywords s words
      let txt := if r.2 ≠ 0 then "Добавлено слов: " ++ toString r.2 ++ "."
                 else "Новые слова не обнаружены."
      .ok (r.1, [Call.sendMessage chatId txt])

/-- `_cmd_remove_keyword`. -/
def cmd_remove_keyword (s : Store) (chatId : Int) (args : List String) :
    Except String (Store × List Call) :=
  match args with
  | [] => .error "Укажите слова через запятую для удаления"
  | _ =>
      let words := parse_words_csv (String.intercalate " " args)
      let r := remove_keywords s words
      let txt := if r.2 ≠ 0 then "Удалено слов: " ++ toString r.2 ++ "."
                 else "Совпадений для удаления не найдено."
      .ok (r.1, [Call.sendMessage chatId txt])

/-- `_cmd_warnings`. -/
def cmd_warnings (s : Store) (chatId : Int) (args : List String) :
    Except String (Store × List Call) :=
  match args with
  | [] => .error "Укажите chat_id"
  | a0 :: rest =>
      match parseIntField a0 "chat_id" with
      | .error e => .error e
      | .ok targetChatId =>
          match rest with
          | [] =>
              let warnings := get_all_warnings s targetChatId
              if warnings.isEmpty then
                .ok (s, [Call.sendMessage chatId
                  ("Для чата " ++ toString targetChatId ++ " нет предупреждений.")])
              else
                let lines := warnings.map (fun p => toString p.1 ++ ": " ++ toString p.2)
                .ok (s, [Call.sendMessage chatId
                  ("Предупреждения в чате " ++ toString targetChatId ++ ":\n"
                    ++ String.intercalate "\n" lines)])
          | a1 :: _ =>
              match parseIntField a1 "user_id" with
              | .error e => .error e
              | .ok userId =>
                  let cnt := get_warning s targetChatId userId
                  .ok (s, [Call.sendMessage chatId
                    ("Пользователь " ++ toString userId ++ " имеет " ++ toString cnt
                      ++ " предупреждений в чате " ++ toString targetChatId ++ ".")])

/-- `_cmd_reset_warning`. -/
def cmd_reset_warning (s : Store) (chatId : Int) (args : List String) :
    Except String (Store × List Call) :=
  match args with
  | a0 :: a1 :: _ =>
      match parseIntField a0 "chat_id" with
      | .error e => .error e
      | .ok targetChatId =>
          match parseIntField a1 "user_id" with
          | .error e => .error e
          | .ok userId =>
              let r := reset_warnings s targetChatId userId
              let txt := if r.2 then
                    "Счетчик предупреждений пользователя " ++ toString userId ++ " сброшен."
                  else "Предупреждений не найдено или чат не модерируется."
              .ok (r.1, [Call.sendMessage chatId txt])
  | _ => .error "Укажите chat_id и user_id"

/-- The slash-command dispatch table (`handlers` dict); `none` models a
command that is not in the table. -/
def commandHandler (env : ApiEnv) (s : Store) (chatId : Int)
    (command : String) (args : List String) :
    Option (Except String (Store × List Call)) :=
  if command = "/start" ∨ command = "/help" then
    some (.ok (s, [Call.sendMessage chatId helpText]))
  else if command = "/add_chat" then some (cmd_add_chat s chatId args)
  else if command = "/remove_chat" then some (cmd_remove_chat s chatId args)
  else if command = "/list_chats" then some (.ok (cmd_list_chats env s chatId))
  else if command = "/add_keyword" then some (cmd_add_keyword s chatId args)
  else if command = "/remove_keyword" then some (cmd_remove_keyword s chatId args)
  else if command = "/list_keywords" then
    some (.ok (s, showKeywordsTrace s chatId))
  else if command = "/warnings" then some (cmd_warnings s chatId args)
  else if command = "/reset_warning" then some (cmd_reset_warning s chatId args)
  else none

/-- The `# 3) Fallback to slash-commands` tail of `_handle_admin_message`
(reached only with no active session). -/
def adminFallback (env : ApiEnv) (sessions : Sessions) (s : Store)
    (chatId : Int) (command : String) (args : List String) :
    Sessions × Store × List Call :=
  if !(strStartsWith "/" command) then
    (sessions, s, [Call.sendMessage chatId "Главное меню:"])
  else
    match commandHandler env s chatId command args with
    | none =>
        (sessions, s,
          [Call.sendMessage chatId "Неизвестная команда. Нажмите \x27Помощь\x27 или \x27Меню\x27."])
    | some (.ok r) => (sessions, r.1, r.2)
    | some (.error e) =>
        (sessions, s, [Call.sendMessage chatId ("Ошибка: " ++ e)])

/-- The body of `_handle_admin_message` after the `chat_shared` block:
tokenisation, button presses, the active-session step, and the
slash-command fallback, in source order. -/
def admin_main (env : ApiEnv) (tok : String → Option (List String))
    (sessions : Sessions) (s : Store) (msg : AdminMsg) :
    Sessions × Store × List Call :=
  let text := adminText msg
  let chatId := msg.chatId
  match tok text with
  | none => (sessions, s, [])
  | some tokens =>
      let command := casefold (tokens.headD "")
      let args := tokens.tail
      if text = "Меню" ∨ text = "/start" ∨ text = "/help" ∨ text = "Помощь" then
        (alRemove sessions chatId, s,
          echoDelete chatId msg.messageId text ++ [Call.sendMessage chatId "Главное меню:"])
      else if text = "⬅ Назад" then
        (alRemove sessions chatId, s,
          echoDelete chatId msg.messageId text ++ [Call.sendMessage chatId "Главное меню:"])
      else if text = "Чаты" then
        (sessions, s,
          echoDelete chatId msg.messageId text ++ [Call.sendMessage chatId "Управление чатами:"])
      else if text = "Модерируемые чаты" then
        let r := cmd_list_chats env s chatId
        (sessions, r.1, echoDelete chatId msg.messageId text ++ r.2)
      else if text = "Слова" then
        (sessions, s,
          echoDelete chatId msg.messageId text ++ [Call.sendMessage chatId "Управление словами:"])
      else if text = "Добавить слово" then
        (alSet sessions chatId { state := "AWAIT_ADD_KEYWORD", reqId := none }, s,
          echoDelete chatId msg.messageId text
            ++ [Call.sendMessage chatId "Отправьте слова через запятую"])
      else if text = "Удалить слово" then
        (alSet sessions chatId { state := "AWAIT_REMOVE_KEYWORD", reqId := none }, s,
          echoDelete chatId msg.messageId text
            ++ [Call.sendMessage chatId "Отправьте слова через запятую для удаления"])
      else if text = "Список слов" then
        (sessions, s, echoDelete chatId msg.messageId text ++ showKeywordsTrace s chatId)
      else
        match alGet sessions chatId with
        | some sess =>
            if sess.state ≠ "" then
              let out := sessionOutcome s chatId sess.state text tokens
              (alRemove sessions chatId, out.1, out.2)
            else adminFallback env sessions s chatId command args
        | none => adminFallback env sessions s chatId command args

/-- `_handle_admin_message`: the `chat_shared` block (static request ids
101/102, then the legacy session-correlated flow), falling through to
`admin_main` when nothing matches. -/
def handle_admin_message (env : ApiEnv) (tok : String → Option (List String))
    (sessions : Sessions) (s : Store) (msg : AdminMsg) :
    Sessions × Store × List Call :=
  match msg.chatShared with
  | none => admin_main env tok sessions s msg
  | some sh =>
      let adminChatId := msg.chatId
      if sh.requestId = some 101 then
        let r := add_chat s sh.chatId none
        let afterTitle :=
          match env.getChatResult sh.chatId with
          | .error _ => r.1
          | .ok info =>
              match strTruthy info.title with
              | some t => update_chat_title r.1 sh.chatId t
              | none => r.1
        let txt := "Чат " ++ toString sh.chatId
                     ++ (if r.2 then " добавлен." else " уже в списке.")
        (sessions, afterTitle, [Call.getChat sh.chatId, Call.sendMessage adminChatId txt])
      else if sh.requestId = some 102 then
        let r := remove_chat s sh.chatId
        let txt := "Чат " ++ toString sh.chatId
                     ++ (if r.2 then " удален." else " не найден.")
        (sessions, r.1, [Call.sendMessage adminChatId txt])
      else
        match alGet sessions adminChatId with
        | some sess =>
            if sess.state = "AWAIT_ADD_CHAT_CHOOSE" ∧ sess.reqId = sh.requestId then
              let r := add_chat s sh.chatId none
              let afterTitle :=
                match env.getChatResult sh.chatId with
                | .error _ => r.1
                | .ok info =>
                    match strTruthy info.title with
                    | some t => update_chat_title r.1 sh.chatId t
                    | none => r.1
              let txt := "Чат " ++ toString sh.chatId
                           ++ (if r.2 then " добавлен." else " уже в списке.")
              (alRemove sessions adminChatId, afterTitle,
                [Call.getChat sh.chatId, Call.sendMessage adminChatId txt])
            else if sess.state = "AWAIT_REMOVE_CHAT_CHOOSE" ∧ sess.reqId = sh.requestId then
              let r := remove_chat s sh.chatId
              let txt := "Чат " ++ toString sh.chatId
                           ++ (if r.2 then " удален." else " не найден.")
              (alRemove sessions adminChatId, r.1, [Call.sendMessage adminChatId txt])
            else admin_main env tok sessions s msg
        | none => admin_main env tok sessions s msg

/-! ### Spec-side model of the keyword list (for the refinement claim C2)

The store's `add_keywords` filters the incoming batch against the
casefolds of the *pre-existing* list only.  The spec instead describes
sequential insertion with case-insensitive dedup against everything
inserted so far ("two keywords equal under case-fold collapse to one",
first-added spelling and insertion order preserved). -/

/-- A keyword mutation: one `add_keywords` or `remove_keywords` call. -/
inductive KwOp where
  | addK (words : List String)
  | removeK (words : List String)
deriving DecidableEq

/-- Apply one store call to the global keyword list (code side). -/
def applyOp (kws : List String) : KwOp → List String
  | .addK ws => (add_keywords_list kws ws).1
  | .removeK ws => (remove_keywords_list kws ws).1

/-- Apply a sequence of store calls starting from the empty list. -/
def applyOps (ops : List KwOp) : List String := ops.foldl applyOp []

/-- Modelled from the spec: insert the batch words one at a time, skipping
any word whose casefold is already present, so the list keeps the
first-added spelling of each keyword in insertion order. -/
def specInsert (kws : List String) : List String → List String
  | [] => kws
  | w :: ws =>
      if (kws.map casefold).contains (casefold w) then specInsert kws ws
      else specInsert (kws ++ [w]) ws

/-- Spec-side single call: sequential-dedup insertion for adds, the
(uncontested) removal filter for removes. -/
def specApplyOp (kws : List String) : KwOp → List String
  | .addK ws => specInsert kws (cleanedWords ws)
  | .removeK ws => (remove_keywords_list kws ws).1

/-- Spec-side sequence semantics from the empty list. -/
def specApplyOps (ops : List KwOp) : List String := ops.foldl specApplyOp []

/-- No two entries of the list are equal under case-fold. -/
def casefoldDistinct (l : List String) : Prop :=
  List.Pairwise (fun a b => casefold a ≠ casefold b) l

instance (l : List String) : Decidable (casefoldDistinct l) := by
  unfold casefoldDistinct; infer_instance

/-- A batch is internally deduplicated under case-fold after cleaning
(every batch produced by `_parse_words_csv` satisfies this). -/
def batchOK : KwOp → Prop
  | .addK ws => casefoldDistinct (cleanedWords ws)
  | .removeK _ => True

instance : DecidablePred batchOK := fun op => by
  cases op <;> (unfold batchOK; infer_instance)

/-! ### Helper lemmas about the association-list primitives -/

theorem alGet_of_not_alHas {α : Type} (l : List (Int × α)) (k : Int)
    (h : alHas l k = false) : alGet l k = none := by
  unfold alGet
  have hf : l.find? (fun p => p.1 == k) = none := by
    rw [List.find?_eq_none]
    intro p hp hbeq
    have : l.any (fun p => p.1 == k) = true := List.any_eq_true.mpr ⟨p, hp, hbeq⟩
    rw [alHas] at h
    simp [h] at this
  simp [hf]

theorem alHas_exists_alGet {α : Type} (l : List (Int × α)) (k : Int)
    (h : alHas l k = true) : ∃ v, alGet l k = some v := by
  unfold alHas at h
  obtain ⟨p, hp, hbeq⟩ := List.any_eq_true.mp h
  have : (l.find? (fun p => p.1 == k)).isSome := by
    rw [List.find?_isSome]
    exact ⟨p, hp, hbeq⟩
  obtain ⟨q, hq⟩ := Option.isSome_iff_exists.mp this
  exact ⟨q.2, by simp [alGet, hq]⟩

theorem alRemove_of_not_alHas {α : Type} (l : List (Int × α)) (k : Int)
    (h : alHas l k = false) : alRemove l k = l := by
  unfold alRemove
  rw [List.filter_eq_self]
  intro p hp
  unfold alHas at h
  have : ¬ (p.1 == k) = true := by
    intro hbeq
    have : l.any (fun p => p.1 == k) = true := List.any_eq_true.mpr ⟨p, hp, hbeq⟩
    simp [h] at this
  simpa using this

theorem alGet_alRemove_self {α : Type} (l : List (Int × α)) (k : Int) :
    alGet (alRemove l k) k = none := by
  unfold alGet alRemove
  have hf : (l.filter fun p => p.1 != k).find? (fun p => p.1 == k) = none := by
    rw [List.find?_eq_none]
    intro p hp hbeq
    have hne := (List.mem_filter.mp hp).2
    rw [bne_iff_ne] at hne
    rw [beq_iff_eq] at hbeq
    exact hne hbeq
  simp [hf]

theorem find?_setmap_self {α : Type} (k : Int) (v : α) :
    ∀ l : List (Int × α), l.any (fun p => p.1 == k) = true →
      (l.map (fun p => if p.1 == k then (k, v) else p)).find? (fun p => p.1 == k)
        = some (k, v) := by
  intro l
  induction l with
  | nil => intro h; simp at h
  | cons p l ih =>
      intro h
      by_cases hp : (p.1 == k) = true
      · rw [List.map_cons, if_pos hp]
        exact List.find?_cons_of_pos _ (by simp)
      · have hl : l.any (fun p => p.1 == k) = true := by
          simpa [hp] using h
        rw [List.map_cons, if_neg hp, List.find?_cons_of_neg _ (by simpa using hp)]
        exact ih hl

theorem find?_setmap_ne {α : Type} (k k' : Int) (v : α) (hk : k' ≠ k) :
    ∀ l : List (Int × α),
      (l.map (fun p => if p.1 == k then (k, v) else p)).find? (fun p => p.1 == k')
        = l.find? (fun p => p.1 == k') := by
  intro l
  induction l with
  | nil => rfl
  | cons p l ih =>
      by_cases hp : (p.1 == k) = true
      · have hpk' : ¬ (p.1 == k') = true := by
          rw [beq_iff_eq] at hp ⊢
          rw [hp]
          exact fun h => hk h.symm
        have hkk : ¬ ((k, v).1 == k') = true := by
          rw [beq_iff_eq]
          exact fun h => hk h.symm
        rw [List.map_cons, if_pos hp,
          @List.find?_cons_of_neg _ (fun q => q.1 == k') (k, v) _ hkk,
          @List.find?_cons_of_neg _ (fun q => q.1 == k') p _ hpk']
        exact ih
      · rw [List.map_cons, if_neg hp]
        by_cases hq : (p.1 == k') = true
        · rw [@List.find?_cons_of_pos _ (fun q => q.1 == k') p _ hq,
            @List.find?_cons_of_pos _ (fun q => q.1 == k') p _ hq]
        · rw [@List.find?_cons_of_neg _ (fun q => q.1 == k') p _ hq,
            @List.find?_cons_of_neg _ (fun q => q.1 == k') p _ hq]
          exact ih

theorem alGet_alSet_self {α : Type} (l : List (Int × α)) (k : Int) (v : α) :
    alGet (alSet l k v) k = some v := by
  unfold alGet alSet
  by_cases h : l.any (fun p => p.1 == k) = true
  · rw [if_pos h, find?_setmap_self k v l h]
    rfl
  · rw [if_neg h, List.find?_append]
    have hf : l.find? (fun p => p.1 == k) = none := by
      rw [List.find?_eq_none]
      intro p hp hbeq
      exact h (List.any_eq_true.mpr ⟨p, hp, hbeq⟩)
    rw [hf, @List.find?_cons_of_pos _ (fun p => p.1 == k) (k, v) _ (by simp)]
    rfl

theorem alGet_alSet_ne {α : Type} (l : List (Int × α)) (k k' : Int) (v : α)
    (hk : k' ≠ k) : alGet (alSet l k v) k' = alGet l k' := by
  unfold alGet alSet
  by_cases h : l.any (fun p => p.1 == k) = true
  · rw [if_pos h, find?_setmap_ne k k' v hk l]
  · rw [if_neg h, List.find?_append]
    have hkk : ¬ ((k, v).1 == k') = true := by
      rw [beq_iff_eq]
      exact fun hh => hk hh.symm
    cases hq : l.find? (fun p => p.1 == k') with
    | some q => rfl
    | none =>
        rw [@List.find?_cons_of_neg _ (fun p => p.1 == k') (k, v) _ hkk]
        rfl

/-! ### Helper lemmas about the store operations -/

/-- Reading a warning out of a store whose chat entry was just written. -/
theorem get_warning_set (s : Store) (chatId userId : Int) (e' : ChatEntry) :
    get_warning (setChatEntry s chatId e') chatId userId
      = (alGet e'.warnings userId).getD 0 := by
  unfold get_warning setChatEntry
  simp only [alGet_alSet_self]

/-- `increment_warning` returns the previous count plus one. -/
theorem increment_warning_count (s : Store) (chatId userId : Int) :
    (increment_warning s chatId userId).2 = get_warning s chatId userId + 1 := by
  show (alGet ((alGet s.moderatedChats chatId).getD emptyEntry).warnings userId).getD 0 + 1
      = get_warning s chatId userId + 1
  unfold get_warning
  cases hc : alGet s.moderatedChats chatId with
  | none => simp [emptyEntry, alGet]
  | some e => simp

/-- The store after `increment_warning` reads back the previous count
plus one. -/
theorem increment_warning_get (s : Store) (chatId userId : Int) :
    get_warning (increment_warning s chatId userId).1 chatId userId
      = get_warning s chatId userId + 1 := by
  have h1 : (increment_warning s chatId userId).1
      = setChatEntry s chatId
          (withWarnings ((alGet s.moderatedChats chatId).getD emptyEntry)
            (alSet ((alGet s.moderatedChats chatId).getD emptyEntry).warnings userId
              ((alGet ((alGet s.moderatedChats chatId).getD emptyEntry).warnings userId).getD 0
                + 1))) := rfl
  rw [h1, get_warning_set]
  show (alGet (alSet _ _ _) _).getD 0 = _
  rw [alGet_alSet_self]
  unfold get_warning
  cases hc : alGet s.moderatedChats chatId with
  | none => simp [emptyEntry, alGet]
  | some e => simp

/-- After `reset_warnings`, the counter reads zero. -/
theorem get_warning_after_reset (s : Store) (chatId userId : Int) :
    get_warning (reset_warnings s chatId userId).1 chatId userId = 0 := by
  cases hc : alGet s.moderatedChats chatId with
  | none =>
      have h1 : (reset_warnings s chatId userId).1 = s := by
        unfold reset_warnings
        rw [hc]
      rw [h1]
      unfold get_warning
      rw [hc]
  | some e =>
      by_cases hw : alHas e.warnings userId = true
      · have h1 : (reset_warnings s chatId userId).1
            = setChatEntry s chatId (withWarnings e (alRemove e.warnings userId)) := by
          unfold reset_warnings
          rw [hc]
          simp only [hw, if_true]
          rfl
        rw [h1, get_warning_set]
        show (alGet (alRemove _ _) _).getD 0 = 0
        rw [alGet_alRemove_self]
        rfl
      · simp only [Bool.not_eq_true] at hw
        have h1 : (reset_warnings s chatId userId).1 = s := by
          unfold reset_warnings
          rw [hc]
          simp [hw]
        rw [h1]
        unfold get_warning
        rw [hc]
        simp [alGet_of_not_alHas _ _ hw]

/-! ### Lemmas for the keyword-list refinement (claim C2) -/

/-- `add_keywords_list` always appends exactly the cleaned words whose
casefold is new relative to the existing list (including the degenerate
empty-batch and nothing-new cases, where the appended part is empty). -/
theorem add_keywords_list_eq (current ws : List String) :
    (add_keywords_list current ws).1
      = current ++ (cleanedWords ws).filter
          (fun w => !((current.map casefold).contains (casefold w))) := by
  simp only [add_keywords_list]
  split
  · next h1 =>
      rw [h1]
      simp
  · next h1 =>
      split
      · next h2 =>
          rw [h2]
          simp
      · next h2 => rfl

/-- On a batch with pairwise-distinct casefolds, sequential spec-side
insertion agrees with the code's one-shot filter against the existing
list. -/
theorem specInsert_eq : ∀ (batch current : List String), casefoldDistinct batch →
    specInsert current batch
      = current ++ batch.filter (fun w => !((current.map casefold).contains (casefold w)))
  | [], current, _ => by simp [specInsert]
  | w :: ws, current, h => by
      rcases List.pairwise_cons.mp h with ⟨hw, hws⟩
      by_cases hmem : ((current.map casefold).contains (casefold w)) = true
      · rw [specInsert, if_pos hmem, specInsert_eq ws current hws]
        have hpw : (!((current.map casefold).contains (casefold w))) = false := by
          rw [hmem]
          rfl
        rw [List.filter_cons, hpw, if_neg Bool.false_ne_true]
      · rw [specInsert, if_neg hmem, specInsert_eq ws (current ++ [w]) hws]
        have hfilters : ws.filter
              (fun u => !(((current ++ [w]).map casefold).contains (casefold u)))
            = ws.filter (fun u => !((current.map casefold).contains (casefold u))) := by
          apply List.filter_congr
          intro u hu
          have hne : casefold w ≠ casefold u := hw u hu
          simp only [List.map_append, List.map_cons, List.map_nil, List.contains,
            List.elem_eq_mem, List.mem_append, List.mem_singleton, decide_eq_true_eq]
          have : ¬ casefold u = casefold w := fun hh => hne hh.symm
          simp [this]
        rw [hfilters]
        have hcf : ((current.map casefold).contains (casefold w)) = false :=
          Bool.eq_false_iff.mpr hmem
        have hpw : (!((current.map casefold).contains (casefold w))) = true := by
          rw [hcf]
          rfl
        rw [List.filter_cons, hpw, if_pos rfl, List.append_assoc, List.singleton_append]

/-- Spec-side insertion preserves the no-two-casefold-equal invariant. -/
theorem specInsert_distinct : ∀ (batch current : List String),
    casefoldDistinct current → casefoldDistinct (specInsert current batch)
  | [], _, h => h
  | w :: ws, current, h => by
      by_cases hmem : ((current.map casefold).contains (casefold w)) = true
      · rw [specInsert, if_pos hmem]
        exact specInsert_distinct ws current h
      · rw [specInsert, if_neg hmem]
        apply specInsert_distinct ws
        unfold casefoldDistinct at h ⊢
        rw [List.pairwise_append]
        refine ⟨h, List.pairwise_singleton _ _, ?_⟩
        intro a ha b hb
        rcases List.mem_singleton.mp hb with rfl
        intro heq
        apply hmem
        have : casefold b ∈ current.map casefold := heq ▸ List.mem_map_of_mem casefold ha
        simp [List.contains, List.elem_eq_mem, this]

/-- Keyword removal preserves the invariant (it filters the list). -/
theorem remove_keywords_list_distinct (current ws : List String)
    (h : casefoldDistinct current) :
    casefoldDistinct (remove_keywords_list current ws).1 := by
  unfold remove_keywords_list
  by_cases h1 : cleanedWords ws = []
  · simpa [h1] using h
  · rw [if_neg h1]
    exact List.Pairwise.sublist (List.filter_sublist _) h

/-- Code-side and spec-side keyword semantics agree on every sequence of
calls whose add batches are internally casefold-deduplicated, and the
output list keeps the invariant. -/
theorem applyOps_spec : ∀ (ops : List KwOp) (current : List String),
    casefoldDistinct current → (∀ op ∈ ops, batchOK op) →
    ops.foldl applyOp current = ops.foldl specApplyOp current ∧
      casefoldDistinct (ops.foldl applyOp current)
  | [], _, hcur, _ => ⟨rfl, hcur⟩
  | op :: ops, current, hcur, hops => by
      have hop : batchOK op := hops op (List.mem_cons_self op ops)
      have hrest : ∀ o ∈ ops, batchOK o := fun o ho => hops o (List.mem_cons_of_mem op ho)
      have hstep : applyOp current op = specApplyOp current op := by
        cases op with
        | addK ws =>
            show (add_keywords_list current ws).1 = specInsert current (cleanedWords ws)
            rw [add_keywords_list_eq, specInsert_eq (cleanedWords ws) current hop]
        | removeK ws => rfl
      have hdist : casefoldDistinct (applyOp current op) := by
        cases op with
        | addK ws =>
            rw [hstep]
            exact specInsert_distinct (cleanedWords ws) current hcur
        | removeK ws => exact remove_keywords_list_distinct current ws hcur
      have ihres := applyOps_spec ops (applyOp current op) hdist hrest
      simp only [List.foldl_cons]
      constructor
      · rw [← hstep]
        exact ihres.1
      · exact ihres.2

/-- Every batch produced by the comma-list parser is internally
casefold-deduplicated, so in-repo callers always satisfy `batchOK`. -/
theorem parse_words_csv_batchOK (raw : String) :
    casefoldDistinct (parse_words_csv raw) := by
  unfold parse_words_csv
  generalize ((pysplit ',' raw).map pytrim).filter (fun p => p ≠ "") = parts
  suffices h : ∀ (ps seen : List String),
      (dedupCasefold ps seen).Pairwise (fun a b => casefold a ≠ casefold b) ∧
        ∀ w ∈ dedupCasefold ps seen, casefold w ∉ seen from (h parts []).1
  intro ps
  induction ps with
  | nil => intro seen; exact ⟨List.Pairwise.nil, by simp [dedupCasefold]⟩
  | cons p ps ih =>
      intro seen
      by_cases hmem : seen.contains (casefold p) = true
      · rw [dedupCasefold, if_pos hmem]
        exact ih seen
      · rw [dedupCasefold, if_neg hmem]
        obtain ⟨hpair, hnotin⟩ := ih (casefold p :: seen)
        constructor
        · rw [List.pairwise_cons]
          refine ⟨?_, hpair⟩
          intro b hb heq
          exact hnotin b hb (heq ▸ List.mem_cons_self _ _)
        · intro w hw
          rcases List.mem_cons.mp hw with rfl | hw'
          · intro hin
            apply hmem
            simp [List.contains, List.elem_eq_mem, hin]
          · intro hin
            exact hnotin w hw' (List.mem_cons_of_mem _ hin)

/-! ### Lemmas for the rate limiter (claim C1) -/

/-- On a sorted deque (timestamps are appended in arrival order), the
front-drop loop removes exactly the timestamps older than the window. -/
theorem dropOld_sorted (window now : Int) (dq : List Int) (h : dq.Sorted (· ≤ ·)) :
    dropOld window now dq = dq.filter (fun t => decide (now - t ≤ window)) := by
  induction dq with
  | nil => rfl
  | cons t rest ih =>
      rcases List.sorted_cons.mp h with ⟨h1, h2⟩
      by_cases hw : window < now - t
      · rw [dropOld, if_pos hw, ih h2, List.filter_cons]
        have hf : decide (now - t ≤ window) = false := by
          simp only [decide_eq_false_iff_not]
          omega
        rw [hf, if_neg Bool.false_ne_true]
      · rw [dropOld, if_neg hw]
        have hpt : decide (now - t ≤ window) = true := by
          simp only [decide_eq_true_eq]
          omega
        have hrest : rest.filter (fun u => decide (now - u ≤ window)) = rest := by
          rw [List.filter_eq_self]
          intro b hb
          have hb' := h1 b hb
          simp only [decide_eq_true_eq]
          omega
        rw [List.filter_cons, hpt, if_pos rfl, hrest]

/-- The head of a nonempty filtered list satisfies the filter predicate. -/
theorem headD_filter_prop (p : Int → Bool) (l : List Int) (h : l.filter p ≠ []) :
    p ((l.filter p).headD 0) = true := by
  cases hf : l.filter p with
  | nil => exact absurd hf h
  | cons a t =>
      have ha : a ∈ l.filter p := by
        rw [hf]
        exact List.mem_cons_self a t
      have := List.of_mem_filter ha
      simpa using this

/-- C1.  For every rate-limiter state (an ordered timestamp sequence for
one (chat,user) key) and every call at time `now`: the front-drop loop
removes exactly the timestamps older than the window; the call reports
exceeded precisely when the surviving count is at least the configured
maximum (the surviving oldest is then automatically within the window),
in which case `now` is not recorded, and otherwise `now` is appended and
the call reports not-exceeded.  Consequently (window 60, maximum 10) ten
messages at t=0 all pass, an eleventh at t=5 is flagged and not
recorded, and a message at t=61 passes again. -/
theorem C1_rate_limiter (window : Int) (maxMsgs : Nat) (dq : List Int) (now : Int)
    (hsorted : dq.Sorted (· ≤ ·)) :
    dropOld window now dq = dq.filter (fun t => decide (now - t ≤ window))
    ∧ ((checkAndRecord window maxMsgs dq now).1 = true ↔
        maxMsgs ≤ (dq.filter (fun t => decide (now - t ≤ window))).length ∧
          dq.filter (fun t => decide (now - t ≤ window)) ≠ [])
    ∧ ((checkAndRecord window maxMsgs dq now).1 = true →
        (checkAndRecord window maxMsgs dq now).2
          = dq.filter (fun t => decide (now - t ≤ window)))
    ∧ ((checkAndRecord window maxMsgs dq now).1 = false →
        (checkAndRecord window maxMsgs dq now).2
          = dq.filter (fun t => decide (now - t ≤ window)) ++ [now])
    ∧ rlRun 60 10 [0, 0, 0, 0, 0, 0, 0, 0, 0, 0, 5, 61]
        = [false, false, false, false, false, false, false, false, false, false,
           true, false] := by
  have hdrop := dropOld_sorted window now dq hsorted
  have hCR : checkAndRecord window maxMsgs dq now
      = if maxMsgs ≤ (dq.filter (fun t => decide (now - t ≤ window))).length ∧
            (dq.filter (fun t => decide (now - t ≤ window)) ≠ [] ∧
              now - (dq.filter (fun t => decide (now - t ≤ window))).headD 0 ≤ window)
        then (true, dq.filter (fun t => decide (now - t ≤ window)))
        else (false, dq.filter (fun t => decide (now - t ≤ window)) ++ [now]) := by
    simp only [checkAndRecord]
    rw [hdrop]
  by_cases hc : maxMsgs ≤ (dq.filter (fun t => decide (now - t ≤ window))).length ∧
      dq.filter (fun t => decide (now - t ≤ window)) ≠ []
  · have hfull : maxMsgs ≤ (dq.filter (fun t => decide (now - t ≤ window))).length ∧
        (dq.filter (fun t => decide (now - t ≤ window)) ≠ [] ∧
          now - (dq.filter (fun t => decide (now - t ≤ window))).headD 0 ≤ window) := by
      refine ⟨hc.1, hc.2, ?_⟩
      have hh := headD_filter_prop (fun t => decide (now - t ≤ window)) dq hc.2
      simpa using hh
    rw [hCR, if_pos hfull]
    refine ⟨hdrop, ?_, ?_, ?_, by decide⟩
    · simpa using hc
    · intro _
      rfl
    · intro hfalse
      simp at hfalse
  · have hnot : ¬ (maxMsgs ≤ (dq.filter (fun t => decide (now - t ≤ window))).length ∧
        (dq.filter (fun t => decide (now - t ≤ window)) ≠ [] ∧
          now - (dq.filter (fun t => decide (now - t ≤ window))).headD 0 ≤ window)) := by
      intro hfull
      exact hc ⟨hfull.1, hfull.2.1⟩
    rw [hCR, if_neg hnot]
    refine ⟨hdrop, ?_, ?_, ?_, by decide⟩
    · constructor
      · intro hh
        simp at hh
      · intro hh
        exact absurd hh hc
    · intro hh
      simp at hh
    · intro _
      rfl

/-- C1 witness: a concrete sorted state at a concrete time, with the
hypothesis discharged and the not-exceeded branch evaluated. -/
theorem C1_rate_limiter_witness :
    ([0, 30] : List Int).Sorted (· ≤ ·) ∧
      (checkAndRecord 60 10 [0, 30] 40).2 = [0, 30] ++ [40] := by
  constructor
  · decide
  · have h := C1_rate_limiter 60 10 [0, 30] 40 (by decide)
    have h4 := h.2.2.2.1 (by decide)
    rw [h4]
    decide

/-- C2 counterexample: a single `add_keywords` batch holding two words
equal under case-fold is appended wholesale — the batch is filtered only
against the pre-existing list — so the resulting global list violates
case-fold uniqueness. -/
theorem C2_counterexample :
    applyOps [KwOp.addK ["Spam", "spam", "Ads"]] = ["Spam", "spam", "Ads"]
      ∧ ¬ casefoldDistinct (applyOps [KwOp.addK ["Spam", "spam", "Ads"]]) := by
  constructor
  · decide
  · decide

/-- C2 (amended).  For every sequence of `add_keywords`/`remove_keywords`
calls from the empty state in which each add batch is internally
deduplicated under case-fold after trimming (as every caller's
`_parse_words_csv` output is), the resulting global list equals the
spec-side model that inserts first-added spellings in insertion order,
and it contains no two entries equal under case-fold. -/
theorem C2_keywords_unique (ops : List KwOp) (hops : ∀ op ∈ ops, batchOK op) :
    applyOps ops = specApplyOps ops ∧ casefoldDistinct (applyOps ops) :=
  applyOps_spec ops [] List.Pairwise.nil hops

/-- C2 witness: a concrete call sequence with deduplicated batches. -/
theorem C2_keywords_unique_witness :
    applyOps [KwOp.addK ["Spam", "Ads"], KwOp.addK ["spam", "Casino"],
        KwOp.removeK ["ADS"]]
      = specApplyOps [KwOp.addK ["Spam", "Ads"], KwOp.addK ["spam", "Casino"],
        KwOp.removeK ["ADS"]]
    ∧ casefoldDistinct (applyOps [KwOp.addK ["Spam", "Ads"],
        KwOp.addK ["spam", "Casino"], KwOp.removeK ["ADS"]]) :=
  C2_keywords_unique _ (by decide)

/-! ### Claims C3, C4, C7: escalation and its error handling -/

/-- C3 counterexample: when the administrator-list query raises, a
warning-limit escalation still issues the ban call (`_can_ban` returns
`True` on query failure, "let API decide") and sends no skipped-ban
notice to the admin chat — the pipeline does not abstain. -/
theorem C3_counterexample :
    Call.banChatMember 1 2 ∈
      (enforce_ban
        { adminChatIds := [900], warningLimit := 3, maxMessageLength := 100,
          rlWindowSeconds := 60, rlMaxMessages := 10 }
        { deleteResult := fun _ _ => .ok (), banResult := fun _ _ => .ok (),
          adminsResult := fun _ => .error "boom", getChatResult := fun _ => .ok ⟨none, none⟩ }
        { moderatedChats := [], globalKeywords := [] } 1 2 "@u" 3).2
    ∧ Call.sendMessage 900 (banSkipNote "@u") ∉
      (enforce_ban
        { adminChatIds := [900], warningLimit := 3, maxMessageLength := 100,
          rlWindowSeconds := 60, rlMaxMessages := 10 }
        { deleteResult := fun _ _ => .ok (), banResult := fun _ _ => .ok (),
          adminsResult := fun _ => .error "boom", getChatResult := fun _ => .ok ⟨none, none⟩ }
        { moderatedChats := [], globalKeywords := [] } 1 2 "@u" 3).2 := by
  constructor
  · decide
  · decide

/-- C3 (amended).  The pipeline abstains from banning — no ban call, a
skipped-ban notice to every admin chat, warning counters untouched —
exactly when the administrator-list query succeeds and lists the target
user; when the query raises a transport error, the ban is attempted
anyway ("let API decide"). -/
theorem C3_ban_abstention (cfg : BotCfg) (env : ApiEnv) (s : Store)
    (chatId userId : Int) (d : String) (cnt : Nat) :
    (∀ admins, env.adminsResult chatId = .ok admins → userId ∈ admins →
      (enforce_ban cfg env s chatId userId d cnt).1 = s
      ∧ (∀ c u, Call.banChatMember c u ∉ (enforce_ban cfg env s chatId userId d cnt).2)
      ∧ (∀ a ∈ cfg.adminChatIds,
          Call.sendMessage a (banSkipNote d) ∈ (enforce_ban cfg env s chatId userId d cnt).2))
    ∧ (∀ e, env.adminsResult chatId = .error e →
        Call.banChatMember chatId userId ∈ (enforce_ban cfg env s chatId userId d cnt).2) := by
  constructor
  · intro admins hok hmem
    have hcan : can_ban env chatId userId = false := by
      unfold can_ban
      rw [hok]
      simp [hmem]
    have hout : enforce_ban cfg env s chatId userId d cnt
        = (s, [Call.getChatAdministrators chatId] ++ notify_admins cfg (banSkipNote d)
            ++ [Call.sendMessage chatId (cantBanGroupNote d)]) := by
      unfold enforce_ban
      rw [hcan]
      rfl
    rw [hout]
    refine ⟨rfl, ?_, ?_⟩
    · intro c u hmem'
      simp [notify_admins] at hmem'
    · intro a ha
      simp only [List.mem_append, notify_admins, List.mem_map]
      exact Or.inl (Or.inr ⟨a, ha, rfl⟩)
  · intro e herr
    have hcan : can_ban env chatId userId = true := by
      unfold can_ban
      rw [herr]
    have hbranch : enforce_ban cfg env s chatId userId d cnt
        = match env.banResult chatId userId with
          | .error e' =>
              (s, [Call.getChatAdministrators chatId] ++ [Call.banChatMember chatId userId]
                ++ notify_admins cfg (banFailNote d userId chatId e'))
          | .ok _ =>
              ((reset_warnings s chatId userId).1,
                [Call.getChatAdministrators chatId]
                  ++ [Call.banChatMember chatId userId,
                      Call.sendMessage chatId (banGroupNote d cnt)]
                  ++ notify_admins cfg (banOkNote d userId chatId)) := by
      unfold enforce_ban
      rw [hcan]
      rfl
    rw [hbranch]
    cases hb : env.banResult chatId userId with
    | error e' => simp
    | ok u => simp

/-- C3 witness: a successful query listing the target as admin leads to
abstention with the store intact and the skip notice delivered. -/
theorem C3_ban_abstention_witness :
    (enforce_ban
        { adminChatIds := [900], warningLimit := 3, maxMessageLength := 100,
          rlWindowSeconds := 60, rlMaxMessages := 10 }
        { deleteResult := fun _ _ => .ok (), banResult := fun _ _ => .ok (),
          adminsResult := fun _ => .ok [2], getChatResult := fun _ => .ok ⟨none, none⟩ }
        { moderatedChats := [], globalKeywords := [] } 1 2 "@u" 3).1
      = { moderatedChats := [], globalKeywords := [] }
    ∧ Call.sendMessage 900 (banSkipNote "@u") ∈
      (enforce_ban
        { adminChatIds := [900], warningLimit := 3, maxMessageLength := 100,
          rlWindowSeconds := 60, rlMaxMessages := 10 }
        { deleteResult := fun _ _ => .ok (), banResult := fun _ _ => .ok (),
          adminsResult := fun _ => .ok [2], getChatResult := fun _ => .ok ⟨none, none⟩ }
        { moderatedChats := [], globalKeywords := [] } 1 2 "@u" 3).2 := by
  have h := (C3_ban_abstention
    { adminChatIds := [900], warningLimit := 3, maxMessageLength := 100,
      rlWindowSeconds := 60, rlMaxMessages := 10 }
    { deleteResult := fun _ _ => .ok (), banResult := fun _ _ => .ok (),
      adminsResult := fun _ => .ok [2], getChatResult := fun _ => .ok ⟨none, none⟩ }
    { moderatedChats := [], globalKeywords := [] } 1 2 "@u" 3).1 [2] rfl (by decide)
  exact ⟨h.1, h.2.2 900 (by decide)⟩

/-- C4.  In a keyword-violation escalation, a failed delete call aborts
the event silently — the store is unchanged and only the delete attempt
is traced — and when the delete succeeds the counter is incremented by
exactly one (read back as old count + 1 whenever the new count is still
below the ban limit). -/
theorem C4_delete_gates_warning (cfg : BotCfg) (env : ApiEnv) (s : Store)
    (chatId messageId userId : Int) (uname fn ln : Option String)
    (ty txt cap : Option String) (matched : List String) :
    (∀ e, env.deleteResult chatId messageId = .error e →
      process_violation cfg env s
          ⟨⟨some chatId, ty⟩, ⟨some userId, uname, fn, ln⟩, some messageId, txt, cap⟩ matched
        = (s, [Call.deleteMessage chatId messageId]))
    ∧ (env.deleteResult chatId messageId = .ok () →
        get_warning s chatId userId + 1 < cfg.warningLimit →
        get_warning (process_violation cfg env s
            ⟨⟨some chatId, ty⟩, ⟨some userId, uname, fn, ln⟩, some messageId, txt, cap⟩
            matched).1 chatId userId
          = get_warning s chatId userId + 1) := by
  constructor
  · intro e he
    simp only [process_violation]
    rw [he]
  · intro hok hlt
    simp only [process_violation]
    rw [hok]
    have hcond : ¬ (cfg.warningLimit ≤ (increment_warning s chatId userId).2) := by
      rw [increment_warning_count]
      omega
    rw [if_neg hcond]
    exact increment_warning_get s chatId userId

/-- C4 witness: both sides at concrete inputs — a failing delete leaves
the empty store untouched; a succeeding delete (limit 3) brings the
counter from 0 to 1. -/
theorem C4_delete_gates_warning_witness :
    process_violation
        { adminChatIds := [900], warningLimit := 3, maxMessageLength := 100,
          rlWindowSeconds := 60, rlMaxMessages := 10 }
        { deleteResult := fun _ _ => .error "boom", banResult := fun _ _ => .ok (),
          adminsResult := fun _ => .ok [], getChatResult := fun _ => .ok ⟨none, none⟩ }
        { moderatedChats := [], globalKeywords := [] }
        ⟨⟨some 1, some "group"⟩, ⟨some 5, none, none, none⟩, some 2, some "spam", none⟩
        ["spam"]
      = ({ moderatedChats := [], globalKeywords := [] }, [Call.deleteMessage 1 2])
    ∧ get_warning (process_violation
        { adminChatIds := [900], warningLimit := 3, maxMessageLength := 100,
          rlWindowSeconds := 60, rlMaxMessages := 10 }
        { deleteResult := fun _ _ => .ok (), banResult := fun _ _ => .ok (),
          adminsResult := fun _ => .ok [], getChatResult := fun _ => .ok ⟨none, none⟩ }
        { moderatedChats := [], globalKeywords := [] }
        ⟨⟨some 1, some "group"⟩, ⟨some 5, none, none, none⟩, some 2, some "spam", none⟩
        ["spam"]).1 1 5 = 1 := by
  constructor
  · exact (C4_delete_gates_warning _ _ _ 1 2 5 none none none (some "group")
      (some "spam") none ["spam"]).1 "boom" rfl
  · have h := (C4_delete_gates_warning
      { adminChatIds := [900], warningLimit := 3, maxMessageLength := 100,
        rlWindowSeconds := 60, rlMaxMessages := 10 }
      { deleteResult := fun _ _ => .ok (), banResult := fun _ _ => .ok (),
        adminsResult := fun _ => .ok [], getChatResult := fun _ => .ok ⟨none, none⟩ }
      { moderatedChats := [], globalKeywords := [] }
      1 2 5 none none none (some "group") (some "spam") none ["spam"]).2 rfl (by decide)
    exact h.trans (by decide)

/-- C7.  Once escalation reaches the ban attempt: a successful ban call
resets the counter to absent (it reads back 0) and both the group
notice and an admin-channel notice are sent; a failed ban call leaves
the store intact and every admin chat receives the failure notice with
the failure reason. -/
theorem C7_ban_outcome (cfg : BotCfg) (env : ApiEnv) (s : Store)
    (chatId userId : Int) (d : String) (cnt : Nat)
    (hcan : can_ban env chatId userId = true) :
    (env.banResult chatId userId = .ok () →
      get_warning (enforce_ban cfg env s chatId userId d cnt).1 chatId userId = 0
      ∧ Call.sendMessage chatId (banGroupNote d cnt)
          ∈ (enforce_ban cfg env s chatId userId d cnt).2
      ∧ (∀ a ∈ cfg.adminChatIds, Call.sendMessage a (banOkNote d userId chatId)
          ∈ (enforce_ban cfg env s chatId userId d cnt).2))
    ∧ (∀ e, env.banResult chatId userId = .error e →
        (enforce_ban cfg env s chatId userId d cnt).1 = s
        ∧ (∀ a ∈ cfg.adminChatIds, Call.sendMessage a (banFailNote d userId chatId e)
            ∈ (enforce_ban cfg env s chatId userId d cnt).2)) := by
  have hbranch : enforce_ban cfg env s chatId userId d cnt
      = match env.banResult chatId userId with
        | .error e' =>
            (s, [Call.getChatAdministrators chatId] ++ [Call.banChatMember chatId userId]
              ++ notify_admins cfg (banFailNote d userId chatId e'))
        | .ok _ =>
            ((reset_warnings s chatId userId).1,
              [Call.getChatAdministrators chatId]
                ++ [Call.banChatMember chatId userId,
                    Call.sendMessage chatId (banGroupNote d cnt)]
                ++ notify_admins cfg (banOkNote d userId chatId)) := by
    unfold enforce_ban
    rw [hcan]
    rfl
  constructor
  · intro hok
    rw [hbranch, hok]
    refine ⟨get_warning_after_reset s chatId userId, by simp, ?_⟩
    intro a ha
    simp only [List.mem_append, notify_admins, List.mem_map]
    exact Or.inr ⟨a, ha, rfl⟩
  · intro e herr
    rw [hbranch, herr]
    refine ⟨rfl, ?_⟩
    intro a ha
    simp only [List.mem_append, notify_admins, List.mem_map]
    exact Or.inr ⟨a, ha, rfl⟩

/-- C7 witness: with the admin query returning an empty list, a
successful ban resets a concrete counter of 2 back to 0 and delivers
both notices. -/
theorem C7_ban_outcome_witness :
    get_warning (enforce_ban
        { adminChatIds := [900], warningLimit := 3, maxMessageLength := 100,
          rlWindowSeconds := 60, rlMaxMessages := 10 }
        { deleteResult := fun _ _ => .ok (), banResult := fun _ _ => .ok (),
          adminsResult := fun _ => .ok [], getChatResult := fun _ => .ok ⟨none, none⟩ }
        { moderatedChats := [(1, { title := "", keywords := [], warnings := [(2, 2)] })],
          globalKeywords := [] } 1 2 "@u" 3).1 1 2 = 0
    ∧ Call.sendMessage 1 (banGroupNote "@u" 3) ∈
      (enforce_ban
        { adminChatIds := [900], warningLimit := 3, maxMessageLength := 100,
          rlWindowSeconds := 60, rlMaxMessages := 10 }
        { deleteResult := fun _ _ => .ok (), banResult := fun _ _ => .ok (),
          adminsResult := fun _ => .ok [], getChatResult := fun _ => .ok ⟨none, none⟩ }
        { moderatedChats := [(1, { title := "", keywords := [], warnings := [(2, 2)] })],
          globalKeywords := [] } 1 2 "@u" 3).2 := by
  have h := (C7_ban_outcome
    { adminChatIds := [900], warningLimit := 3, maxMessageLength := 100,
      rlWindowSeconds := 60, rlMaxMessages := 10 }
    { deleteResult := fun _ _ => .ok (), banResult := fun _ _ => .ok (),
      adminsResult := fun _ => .ok [], getChatResult := fun _ => .ok ⟨none, none⟩ }
    { moderatedChats := [(1, { title := "", keywords := [], warnings := [(2, 2)] })],
      globalKeywords := [] } 1 2 "@u" 3 (by decide)).1 rfl
  exact ⟨h.1, h.2.1⟩

/-! ### Claims C8 and C10: chat removal and re-adding an existing chat -/

/-- C8.  `remove_chat` on a present chat returns `true` and discards the
chat and all its warning counters — it no longer appears in
`list_chats`, `get_warning` reads 0 for every user, and
`get_all_warnings` is empty; on an absent chat it returns `false` and
changes nothing. -/
theorem C8_remove_chat (s : Store) (chatId : Int) :
    (is_chat_moderated s chatId = true →
      (remove_chat s chatId).2 = true
      ∧ chatId ∉ (list_chats (remove_chat s chatId).1).map (fun p => p.1)
      ∧ (∀ u, get_warning (remove_chat s chatId).1 chatId u = 0)
      ∧ get_all_warnings (remove_chat s chatId).1 chatId = [])
    ∧ (is_chat_moderated s chatId = false → remove_chat s chatId = (s, false)) := by
  constructor
  · intro h
    refine ⟨h, ?_, ?_, ?_⟩
    · intro hmem
      rw [List.mem_map] at hmem
      obtain ⟨p, hp, hp1⟩ := hmem
      rw [list_chats, List.mem_map] at hp
      obtain ⟨q, hq, hq1⟩ := hp
      have hq' : q ∈ alRemove s.moderatedChats chatId := hq
      rw [alRemove, List.mem_filter] at hq'
      have hne := hq'.2
      rw [bne_iff_ne] at hne
      apply hne
      rw [← hq1] at hp1
      exact hp1
    · intro u
      show get_warning { s with moderatedChats := alRemove s.moderatedChats chatId } chatId u = 0
      unfold get_warning
      rw [show ({ s with moderatedChats := alRemove s.moderatedChats chatId } : Store).moderatedChats
          = alRemove s.moderatedChats chatId from rfl, alGet_alRemove_self]
    · show get_all_warnings { s with moderatedChats := alRemove s.moderatedChats chatId } chatId = []
      unfold get_all_warnings
      rw [show ({ s with moderatedChats := alRemove s.moderatedChats chatId } : Store).moderatedChats
          = alRemove s.moderatedChats chatId from rfl, alGet_alRemove_self]
  · intro h
    show ({ s with moderatedChats := alRemove s.moderatedChats chatId }, alHas s.moderatedChats chatId)
        = (s, false)
    rw [alRemove_of_not_alHas s.moderatedChats chatId h,
      show alHas s.moderatedChats chatId = false from h]

/-- C8 witness: removing a present chat (with a live counter) and then
reading its state back; a second removal on the now-absent chat is a
no-op returning false. -/
theorem C8_remove_chat_witness :
    (remove_chat { moderatedChats := [(1, { title := "t", keywords := [], warnings := [(5, 2)] })], globalKeywords := ["spam"] } 1).2 = true
    ∧ get_warning (remove_chat { moderatedChats := [(1, { title := "t", keywords := [], warnings := [(5, 2)] })], globalKeywords := ["spam"] } 1).1 1 5 = 0
    ∧ remove_chat { moderatedChats := [], globalKeywords := [] } 1
        = ({ moderatedChats := [], globalKeywords := [] }, false) := by
  refine ⟨?_, ?_, ?_⟩
  · exact ((C8_remove_chat _ 1).1 (by decide)).1
  · exact ((C8_remove_chat { moderatedChats := [(1, { title := "t", keywords := [], warnings := [(5, 2)] })], globalKeywords := ["spam"] } 1).1 (by decide)).2.2.1 5
  · exact (C8_remove_chat { moderatedChats := [], globalKeywords := [] } 1).2 (by decide)

/-- C10.  `add_chat` on an already-moderated chat returns `false` and
leaves that chat's warnings unchanged; with no title supplied the store
is entirely unchanged, and with a title supplied only the stored title
of that entry is replaced. -/
theorem C10_add_chat_existing (s : Store) (chatId : Int) (title : Option String)
    (h : is_chat_moderated s chatId = true) :
    (add_chat s chatId title).2 = false
    ∧ (∀ u, get_warning (add_chat s chatId title).1 chatId u = get_warning s chatId u)
    ∧ (title = none → (add_chat s chatId title).1 = s)
    ∧ (∀ t, title = some t → ∃ e, alGet s.moderatedChats chatId = some e ∧
        (add_chat s chatId title).1 = setChatEntry s chatId (withTitle e t)) := by
  have h' : alHas s.moderatedChats chatId = true := h
  obtain ⟨e₀, he₀⟩ := alHas_exists_alGet s.moderatedChats chatId h'
  have hsnd : (add_chat s chatId title).2 = false := by
    simp only [add_chat, h']
    rfl
  have hfst : ∀ t, title = some t →
      (add_chat s chatId title).1 = setChatEntry s chatId (withTitle e₀ t) := by
    intro t ht
    simp only [add_chat, h', ht]
    simp only [if_true]
    rw [he₀]
    rfl
  have hnone : title = none → (add_chat s chatId title).1 = s := by
    intro ht
    simp only [add_chat, h', ht]
    simp only [if_true]
  refine ⟨hsnd, ?_, hnone, fun t ht => ⟨e₀, he₀, hfst t ht⟩⟩
  intro u
  cases title with
  | none => rw [hnone rfl]
  | some t =>
      rw [hfst t rfl, get_warning_set]
      unfold get_warning
      rw [he₀]
      rfl

/-- C10 witness: re-adding a present chat with a new title returns false
and keeps the user's counter at 2. -/
theorem C10_add_chat_existing_witness :
    (add_chat { moderatedChats := [(1, { title := "old", keywords := [], warnings := [(5, 2)] })], globalKeywords := [] } 1 (some "new")).2 = false
    ∧ get_warning (add_chat { moderatedChats := [(1, { title := "old", keywords := [], warnings := [(5, 2)] })], globalKeywords := [] } 1 (some "new")).1 1 5 = 2 := by
  have h := C10_add_chat_existing
    { moderatedChats := [(1, { title := "old", keywords := [], warnings := [(5, 2)] })],
      globalKeywords := [] } 1 (some "new") (by decide)
  exact ⟨h.1, (h.2.1 5).trans (by decide)⟩

/-! ### Claims C5 and C9: the pipeline gates and the long-message path -/

/-- C9.  The moderation pipeline acts only on messages whose chat id is
present, group-like, not an admin chat, and registered as moderated;
when any of these conditions fails the handler returns with the store
and rate windows unchanged and an empty call trace. -/
theorem C9_moderation_gate (cfg : BotCfg) (env : ApiEnv) (s : Store) (rate : RateMap)
    (msg : Message) (now : Int)
    (h : ¬ ∃ chatId, msg.chat.id = some chatId
        ∧ (msg.chat.type = some "group" ∨ msg.chat.type = some "supergroup")
        ∧ chatId ∉ cfg.adminChatIds
        ∧ is_chat_moderated s chatId = true) :
    handle_moderation cfg env s rate msg now = (s, rate, []) := by
  unfold handle_moderation
  cases hid : msg.chat.id with
  | none => rfl
  | some chatId =>
      dsimp only
      by_cases h1 : chatId ∈ cfg.adminChatIds
      · rw [if_pos h1]
      · rw [if_neg h1]
        by_cases h2 : is_chat_moderated s chatId = true
        · have h3 : ¬ (msg.chat.type = some "group" ∨ msg.chat.type = some "supergroup") := by
            intro h3
            exact h ⟨chatId, hid, h3, h1, h2⟩
          have hbeq : (msg.chat.type == some "group"
              || msg.chat.type == some "supergroup") = false := by
            rw [Bool.or_eq_false_iff]
            constructor <;> rw [beq_eq_false_iff_ne]
            · exact fun hh => h3 (Or.inl hh)
            · exact fun hh => h3 (Or.inr hh)
          rw [h2, hbeq]
          simp
        · have h2' : is_chat_moderated s chatId = false := Bool.eq_false_iff.mpr h2
          rw [h2']
          simp

/-- C9 witness: a private-chat message from a moderated chat id is a
silent no-op. -/
theorem C9_moderation_gate_witness :
    handle_moderation
        { adminChatIds := [900], warningLimit := 3, maxMessageLength := 100,
          rlWindowSeconds := 60, rlMaxMessages := 10 }
        { deleteResult := fun _ _ => .ok (), banResult := fun _ _ => .ok (),
          adminsResult := fun _ => .ok [], getChatResult := fun _ => .ok ⟨none, none⟩ }
        { moderatedChats := [(1, { title := "", keywords := [], warnings := [] })], globalKeywords := ["spam"] }
        []
        ⟨⟨some 1, some "private"⟩, ⟨some 5, none, none, none⟩, some 7, some "spam", none⟩ 0
      = ({ moderatedChats := [(1, { title := "", keywords := [], warnings := [] })], globalKeywords := ["spam"] },
          [], []) := by
  apply C9_moderation_gate
  rintro ⟨chatId, hid, hty, -, -⟩
  cases hid
  rcases hty with hty | hty <;> exact absurd hty (by decide)

/-- C5.  For every qualifying message whose extracted text is longer
than the threshold, the pipeline attempts to delete the message, leaves
the store (and hence every warning counter) unchanged, and never issues
a ban call — regardless of the text's keyword content (the keyword
check is never reached). -/
theorem C5_long_message (cfg : BotCfg) (env : ApiEnv) (s : Store) (rate : RateMap)
    (chatId userId messageId : Int) (ty : String) (uname fn ln : Option String)
    (txt cap : Option String) (now : Int) (t : String)
    (hty : ty = "group" ∨ ty = "supergroup")
    (hadmin : chatId ∉ cfg.adminChatIds)
    (hmod : is_chat_moderated s chatId = true)
    (htext : extractText ⟨⟨some chatId, some ty⟩, ⟨some userId, uname, fn, ln⟩,
        some messageId, txt, cap⟩ = some t)
    (hlong : cfg.maxMessageLength < t.length) :
    (handle_moderation cfg env s rate ⟨⟨some chatId, some ty⟩,
        ⟨some userId, uname, fn, ln⟩, some messageId, txt, cap⟩ now).1 = s
    ∧ Call.deleteMessage chatId messageId ∈
        (handle_moderation cfg env s rate ⟨⟨some chatId, some ty⟩,
          ⟨some userId, uname, fn, ln⟩, some messageId, txt, cap⟩ now).2.2
    ∧ ∀ c u, Call.banChatMember c u ∉
        (handle_moderation cfg env s rate ⟨⟨some chatId, some ty⟩,
          ⟨some userId, uname, fn, ln⟩, some messageId, txt, cap⟩ now).2.2 := by
  have hbeq : ((some ty : Option String) == some "group"
      || (some ty : Option String) == some "supergroup") = true := by
    rcases hty with rfl | rfl <;> rfl
  have hres : ∃ rate',
      handle_moderation cfg env s rate ⟨⟨some chatId, some ty⟩,
          ⟨some userId, uname, fn, ln⟩, some messageId, txt, cap⟩ now
        = (s, rate', [Call.deleteMessage chatId messageId])
      ∨ handle_moderation cfg env s rate ⟨⟨some chatId, some ty⟩,
          ⟨some userId, uname, fn, ln⟩, some messageId, txt, cap⟩ now
        = (s, rate', [Call.deleteMessage chatId messageId, Call.sendMessage chatId "Не флуди!"])
      ∨ handle_moderation cfg env s rate ⟨⟨some chatId, some ty⟩,
          ⟨some userId, uname, fn, ln⟩, some messageId, txt, cap⟩ now
        = (s, rate', [Call.deleteMessage chatId messageId,
            Call.sendMessage chatId (longMsgNotice ⟨some userId, uname, fn, ln⟩)]) := by
    refine ⟨rateSet rate chatId userId
      (checkAndRecord cfg.rlWindowSeconds cfg.rlMaxMessages (rateGet rate chatId userId) now).2, ?_⟩
    unfold handle_moderation
    dsimp only
    rw [if_neg hadmin, hmod, hbeq]
    simp only [Bool.not_true, Bool.false_eq_true, if_false]
    cases hfl : (checkAndRecord cfg.rlWindowSeconds cfg.rlMaxMessages
        (rateGet rate chatId userId) now).1 with
    | true =>
        simp only [if_true]
        cases hdel : env.deleteResult chatId messageId with
        | error e => exact Or.inl rfl
        | ok u => exact Or.inr (Or.inl rfl)
    | false =>
        simp only [Bool.false_eq_true, if_false]
        rw [htext]
        dsimp only
        rw [if_pos hlong]
        cases hdel : env.deleteResult chatId messageId with
        | error e => exact Or.inl rfl
        | ok u => exact Or.inr (Or.inr rfl)
  obtain ⟨rate', hres⟩ := hres
  rcases hres with h | h | h <;>
    exact ⟨by rw [h], by rw [h]; simp, by intro c u; rw [h]; simp⟩

/-- C5 witness: a 101-character message in a moderated group is deleted
with the store untouched and no ban issued. -/
theorem C5_long_message_witness :
    (handle_moderation
        { adminChatIds := [900], warningLimit := 3, maxMessageLength := 100,
          rlWindowSeconds := 60, rlMaxMessages := 10 }
        { deleteResult := fun _ _ => .ok (), banResult := fun _ _ => .ok (),
          adminsResult := fun _ => .ok [], getChatResult := fun _ => .ok ⟨none, none⟩ }
        { moderatedChats := [(1, { title := "", keywords := [], warnings := [] })], globalKeywords := ["a"] }
        []
        ⟨⟨some 1, some "group"⟩, ⟨some 5, none, none, none⟩, some 7,
          some (String.mk (List.replicate 101 'a')), none⟩ 0).1
      = { moderatedChats := [(1, { title := "", keywords := [], warnings := [] })], globalKeywords := ["a"] }
    ∧ Call.deleteMessage 1 7 ∈
      (handle_moderation
        { adminChatIds := [900], warningLimit := 3, maxMessageLength := 100,
          rlWindowSeconds := 60, rlMaxMessages := 10 }
        { deleteResult := fun _ _ => .ok (), banResult := fun _ _ => .ok (),
          adminsResult := fun _ => .ok [], getChatResult := fun _ => .ok ⟨none, none⟩ }
        { moderatedChats := [(1, { title := "", keywords := [], warnings := [] })], globalKeywords := ["a"] }
        []
        ⟨⟨some 1, some "group"⟩, ⟨some 5, none, none, none⟩, some 7,
          some (String.mk (List.replicate 101 'a')), none⟩ 0).2.2 := by
  have h := C5_long_message
    { adminChatIds := [900], warningLimit := 3, maxMessageLength := 100,
      rlWindowSeconds := 60, rlMaxMessages := 10 }
    { deleteResult := fun _ _ => .ok (), banResult := fun _ _ => .ok (),
      adminsResult := fun _ => .ok [], getChatResult := fun _ => .ok ⟨none, none⟩ }
    { moderatedChats := [(1, { title := "", keywords := [], warnings := [] })], globalKeywords := ["a"] }
    [] 1 5 7 "group" none none none
    (some (String.mk (List.replicate 101 'a'))) none 0
    (String.mk (List.replicate 101 'a'))
    (Or.inl rfl) (by decide) (by decide) (by decide) (by decide)
  exact ⟨h.1, h.2.1⟩

/-! ### Claim C6: admin session consumption -/

/-- C6 counterexample: with an active `AWAIT_ADD_KEYWORD` session, the
next admin message "Чаты" is handled as the menu-group button *before*
the session branch — it is not interpreted under the session state (the
store stays empty: "Чаты" is not added as a keyword) and the session is
not cleared, surviving the round trip. -/
theorem C6_counterexample :
    (handle_admin_message
        { deleteResult := fun _ _ => .ok (), banResult := fun _ _ => .ok (),
          adminsResult := fun _ => .ok [], getChatResult := fun _ => .ok ⟨none, none⟩ }
        (fun t => some [t])
        [(900, { state := "AWAIT_ADD_KEYWORD", reqId := none })]
        { moderatedChats := [], globalKeywords := [] }
        ⟨900, some 7, some "Чаты", none, none⟩).1
      = [(900, { state := "AWAIT_ADD_KEYWORD", reqId := none })]
    ∧ (handle_admin_message
        { deleteResult := fun _ _ => .ok (), banResult := fun _ _ => .ok (),
          adminsResult := fun _ => .ok [], getChatResult := fun _ => .ok ⟨none, none⟩ }
        (fun t => some [t])
        [(900, { state := "AWAIT_ADD_KEYWORD", reqId := none })]
        { moderatedChats := [], globalKeywords := [] }
        ⟨900, some 7, some "Чаты", none, none⟩).2.1
      = { moderatedChats := [], globalKeywords := [] } := by
  constructor
  · decide
  · decide

/-- C6 (amended).  With an active session, a next admin message that
carries no chat-shared payload and is not one of the UI button texts
handled before the session branch is, when it tokenises, interpreted
under the session state — the handler's result is exactly the session
step's outcome (its store mutation and its sends, successful or the
reported parse error) with the session cleared unconditionally; and
when `shlex.split` raises, the message is dropped with no action and
the session left intact. -/
theorem C6_session_consumed (env : ApiEnv) (tok : String → Option (List String))
    (sessions : Sessions) (s : Store) (chatId : Int) (mid : Option Int)
    (t : String) (cap : Option String) (sess : Session)
    (hsess : alGet sessions chatId = some sess)
    (hstate : sess.state ≠ "")
    (ht : t ≠ "")
    (hbtn : t ∉ (["Меню", "/start", "/help", "Помощь", "⬅ Назад", "Чаты",
        "Модерируемые чаты", "Слова", "Добавить слово", "Удалить слово",
        "Список слов"] : List String)) :
    (∀ toks, tok t = some toks →
      handle_admin_message env tok sessions s ⟨chatId, mid, some t, cap, none⟩
        = (alRemove sessions chatId,
           (sessionOutcome s chatId sess.state t toks).1,
           (sessionOutcome s chatId sess.state t toks).2))
    ∧ (tok t = none →
      handle_admin_message env tok sessions s ⟨chatId, mid, some t, cap, none⟩
        = (sessions, s, [])) := by
  simp only [List.mem_cons, not_or] at hbtn
  obtain ⟨hb1, hb2, hb3, hb4, hb5, hb6, hb7, hb8, hb9, hb10, hb11, -⟩ := hbtn
  have htext : adminText ⟨chatId, mid, some t, cap, none⟩ = t := by
    unfold adminText strTruthy
    dsimp only
    rw [if_neg ht]
  constructor
  · intro toks htoks
    show admin_main env tok sessions s ⟨chatId, mid, some t, cap, none⟩ = _
    unfold admin_main
    dsimp only
    rw [htext, htoks]
    dsimp only
    rw [if_neg (by rintro (hh | hh | hh | hh)
          <;> first
            | exact hb1 hh
            | exact hb2 hh
            | exact hb3 hh
            | exact hb4 hh)]
    rw [if_neg hb5, if_neg hb6, if_neg hb7, if_neg hb8, if_neg hb9, if_neg hb10, if_neg hb11]
    rw [hsess]
    dsimp only
    rw [if_pos hstate]
  · intro hnone
    show admin_main env tok sessions s ⟨chatId, mid, some t, cap, none⟩ = _
    unfold admin_main
    dsimp only
    rw [htext, hnone]

/-- C6 witness: an ordinary text under an active `AWAIT_ADD_KEYWORD`
session is handled by the session step (here: the keyword is added and
the confirmation sent) with the session cleared, and the same message
under a failing tokeniser is a no-op that keeps the session. -/
theorem C6_session_consumed_witness :
    handle_admin_message
        { deleteResult := fun _ _ => .ok (), banResult := fun _ _ => .ok (),
          adminsResult := fun _ => .ok [], getChatResult := fun _ => .ok ⟨none, none⟩ }
        (fun t => some [t])
        [(900, { state := "AWAIT_ADD_KEYWORD", reqId := none })]
        { moderatedChats := [], globalKeywords := [] }
        ⟨900, none, some "привет", none, none⟩
      = (alRemove [(900, { state := "AWAIT_ADD_KEYWORD", reqId := none })] 900,
         (sessionOutcome { moderatedChats := [], globalKeywords := [] } 900
            "AWAIT_ADD_KEYWORD" "привет" ["привет"]).1,
         (sessionOutcome { moderatedChats := [], globalKeywords := [] } 900
            "AWAIT_ADD_KEYWORD" "привет" ["привет"]).2)
    ∧ handle_admin_message
        { deleteResult := fun _ _ => .ok (), banResult := fun _ _ => .ok (),
          adminsResult := fun _ => .ok [], getChatResult := fun _ => .ok ⟨none, none⟩ }
        (fun _ => none)
        [(900, { state := "AWAIT_ADD_KEYWORD", reqId := none })]
        { moderatedChats := [], globalKeywords := [] }
        ⟨900, none, some "привет", none, none⟩
      = ([(900, { state := "AWAIT_ADD_KEYWORD", reqId := none })],
         { moderatedChats := [], globalKeywords := [] }, []) :=
  ⟨(C6_session_consumed
      { deleteResult := fun _ _ => .ok (), banResult := fun _ _ => .ok (),
        adminsResult := fun _ => .ok [], getChatResult := fun _ => .ok ⟨none, none⟩ }
      (fun t => some [t])
      [(900, { state := "AWAIT_ADD_KEYWORD", reqId := none })]
      { moderatedChats := [], globalKeywords := [] }
      900 none "привет" none { state := "AWAIT_ADD_KEYWORD", reqId := none }
      (by decide) (by decide) (by decide) (by decide)).1 ["привет"] rfl,
   (C6_session_consumed
      { deleteResult := fun _ _ => .ok (), banResult := fun _ _ => .ok (),
        adminsResult := fun _ => .ok [], getChatResult := fun _ => .ok ⟨none, none⟩ }
      (fun _ => none)
      [(900, { state := "AWAIT_ADD_KEYWORD", reqId := none })]
      { moderatedChats := [], globalKeywords := [] }
      900 none "привет" none { state := "AWAIT_ADD_KEYWORD", reqId := none }
      (by decide) (by decide) (by decide) (by decide)).2 rfl⟩

end BotMod
